import Mathlib

/-!
Shallow embedding of the go-ratelimiter decision engine.

Source layout mirrored here:
* `drivers/algorithm/fixed_window.go`   → `FixedWindowLimiter.Allow`
* `drivers/algorithm/sliding_window.go` → `SlidingWindowLimiter.Allow`
* `drivers/algorithm/types.go`          → `Context`, the store interface, and
  `TokenBucketLimiter.Allow` (whose Lua script is embedded as
  `Store.evalTokenBucket`, the only script the code ever passes to `Eval`)
* `limiter.go`                          → `Limiter`, `Limiter.Check`,
  `Limiter.checkRule`, `buildKey`, `matchPath`, `Limiter.recordViolation`,
  `Limiter.checkAndBan`

Modelling conventions:
* Go `int64` is `Int` (overflow is not modelled), `time.Duration` is `Int`
  nanoseconds, Go `float64` quantities (token counts, rates, sorted-set
  scores) are `ℚ` or exact `Int` nanosecond scores.
* The shared store is `StoreState`; every operation of the Go `Store`
  interface is a function on it.  Store failures (Go `error` returns) are
  modelled by a `Faults` oracle mapping each operation/key to an optional
  error message; `noFaults` is the fault-free store.  Each Go function that
  returns `(T, error)` becomes `Except String T`.
* Redis `GET` on a missing key yields 0 (the repo's redis driver maps
  `redis.Nil` to `(0, nil)` and the test mock does the same); `TTL` on a key
  without an expiry yields -1 (as in the test mock); `INCR` on a missing key
  creates it with value 1.
* A sorted set is a `Finset Int` of scores: the sliding-window code always
  uses the decimal print of the score as the member, so a member is
  determined by its score.
* The token-bucket hash fields `tokens`/`last_time` are stored together as
  `Option (ℚ × Int)`; the script always writes both and defaults both when
  the key is missing, so this is faithful.
* Time never advances during one call: each `Allow`/`Check` receives the
  `time.Now()` value as an explicit parameter (`nowNs` nanoseconds, or Unix
  seconds where the Go code uses `Unix()`).  TTL countdown between calls is
  not modelled; sequential-call theorems therefore describe calls within a
  single un-expired window, which is exactly the claims' setting.
-/

namespace GoRatelimiter

/-- Go `time.Duration`: a count of nanoseconds (int64). -/
abbrev Duration := Int

/-- Nanoseconds per second. -/
def nsPerSec : Int := 1000000000

/-- Go `int64(d.Seconds())`: seconds of a duration, truncated toward zero. -/
def durationSeconds (d : Duration) : Int := Int.tdiv d nsPerSec

/-- Go `time.Time.Unix()` of a nanosecond epoch instant (floor division). -/
def unixOfNanos (ns : Int) : Int := ns / nsPerSec

/-- Go `int64(q)` for a `float64` quantity `q`: truncation toward zero. -/
def ratTrunc (q : ℚ) : Int := if 0 ≤ q then ⌊q⌋ else -⌊-q⌋

/-- State of the shared key-value store (`Store` interface in `types.go`).
`counters` holds plain integer keys (missing = 0), `ttls` the expirations
set via `Expire`, `zsets` the sorted sets (score = member, see above),
`buckets` the token-bucket hashes `(tokens, last_time)`. -/
structure StoreState where
  counters : String → Int
  ttls : String → Option Duration
  zsets : String → Finset Int
  buckets : String → Option (ℚ × Int)

/-- A store with no keys. -/
def emptyStore : StoreState :=
  { counters := fun _ => 0
    ttls := fun _ => none
    zsets := fun _ => ∅
    buckets := fun _ => none }

/-- Fault oracle: for each store operation and key, `some msg` makes that
operation fail with `msg` (modelling a backend error), `none` lets it
succeed. -/
structure Faults where
  onGet : String → Option String
  onSet : String → Option String
  onDel : String → Option String
  onIncr : String → Option String
  onExpire : String → Option String
  onTTL : String → Option String
  onZAdd : String → Option String
  onZRemRangeByScore : String → Option String
  onZCount : String → Option String
  onEval : String → Option String

/-- The store that never fails. -/
def noFaults : Faults :=
  { onGet := fun _ => none
    onSet := fun _ => none
    onDel := fun _ => none
    onIncr := fun _ => none
    onExpire := fun _ => none
    onTTL := fun _ => none
    onZAdd := fun _ => none
    onZRemRangeByScore := fun _ => none
    onZCount := fun _ => none
    onEval := fun _ => none }

namespace Store

/-- `Get(key) (int64, error)`: value of an integer key, 0 when missing. -/
def get (f : Faults) (s : StoreState) (key : String) : Except String Int :=
  match f.onGet key with
  | some e => .error e
  | none => .ok (s.counters key)

/-- `Set(key, value) error`. -/
def set (f : Faults) (s : StoreState) (key : String) (value : Int) :
    Except String StoreState :=
  match f.onSet key with
  | some e => .error e
  | none => .ok { s with counters := fun k => if k = key then value else s.counters k }

/-- `Del(key) error`: removes the key from every namespace. -/
def del (f : Faults) (s : StoreState) (key : String) : Except String StoreState :=
  match f.onDel key with
  | some e => .error e
  | none =>
    .ok { counters := fun k => if k = key then 0 else s.counters k
          ttls := fun k => if k = key then none else s.ttls k
          zsets := fun k => if k = key then ∅ else s.zsets k
          buckets := fun k => if k = key then none else s.buckets k }

/-- `Incr(key) (int64, error)`: increment, creating the key at 1. -/
def incr (f : Faults) (s : StoreState) (key : String) :
    Except String (Int × StoreState) :=
  match f.onIncr key with
  | some e => .error e
  | none =>
    let v := s.counters key + 1
    .ok (v, { s with counters := fun k => if k = key then v else s.counters k })

/-- `Expire(key, d) error`: set the key's TTL. -/
def expire (f : Faults) (s : StoreState) (key : String) (d : Duration) :
    Except String StoreState :=
  match f.onExpire key with
  | some e => .error e
  | none => .ok { s with ttls := fun k => if k = key then some d else s.ttls k }

/-- Remaining TTL of a key as `TTL` reports it: the set expiration, or -1
when none is set. -/
def ttlValue (s : StoreState) (key : String) : Duration :=
  match s.ttls key with
  | some d => d
  | none => -1

/-- `TTL(key) (time.Duration, error)`: remaining TTL, -1 when none is set. -/
def ttl (f : Faults) (s : StoreState) (key : String) : Except String Duration :=
  match f.onTTL key with
  | some e => .error e
  | none => .ok (ttlValue s key)

/-- `ZAdd(key, score, member) error`; the caller always uses the decimal
print of `score` as the member, so adding is inserting the score. -/
def zadd (f : Faults) (s : StoreState) (key : String) (score : Int) :
    Except String StoreState :=
  match f.onZAdd key with
  | some e => .error e
  | none => .ok { s with zsets := fun k => if k = key then insert score (s.zsets k) else s.zsets k }

/-- `ZRemRangeByScore(key, min, max) error` (both bounds inclusive). -/
def zremRangeByScore (f : Faults) (s : StoreState) (key : String) (lo hi : Int) :
    Except String StoreState :=
  match f.onZRemRangeByScore key with
  | some e => .error e
  | none =>
    .ok { s with zsets := fun k =>
            if k = key then (s.zsets k).filter (fun x => ¬(lo ≤ x ∧ x ≤ hi)) else s.zsets k }

/-- `ZCount(key, min, max) (int64, error)` (both bounds inclusive). -/
def zcount (f : Faults) (s : StoreState) (key : String) (lo hi : Int) :
    Except String Int :=
  match f.onZCount key with
  | some e => .error e
  | none => .ok (((s.zsets key).filter (fun x => lo ≤ x ∧ x ≤ hi)).card : Int)

/-- `Eval(script, keys, args)` for the one script the code ever evaluates:
the token-bucket Lua script in `drivers/algorithm/types.go`.  Executed
atomically; returns the triple `{allowed and 1 or 0, remaining, capacity}`
which Redis converts from Lua numbers to int64 (truncation toward zero).
Lua: `last_time`/`tokens` default to `now`/`capacity` when missing;
`delta = max(0, now - last)`; `new_tokens = min(capacity, tokens + delta*rate)`;
admit iff `new_tokens >= requested` with `requested = 1`; consume one token
only on admission; persist and set TTL `ceil(capacity/rate) + 60` seconds. -/
def evalTokenBucket (f : Faults) (s : StoreState) (key : String)
    (capacity : Int) (rate : ℚ) (now : Int) :
    Except String ((Int × Int × Int) × StoreState) :=
  match f.onEval key with
  | some e => .error e
  | none =>
    let last : Int := match s.buckets key with | some p => p.2 | none => now
    let tokens : ℚ := match s.buckets key with | some p => p.1 | none => (capacity : ℚ)
    let delta : Int := max 0 (now - last)
    let newTokens : ℚ := min (capacity : ℚ) (tokens + (delta : ℚ) * rate)
    let allowed : Bool := decide (1 ≤ newTokens)
    let stored : ℚ := if allowed then newTokens - 1 else newTokens
    let ttlDur : Duration := (⌈(capacity : ℚ) / rate⌉ + 60) * nsPerSec
    let s' : StoreState :=
      { s with buckets := fun k => if k = key then some (stored, now) else s.buckets k
               ttls := fun k => if k = key then some ttlDur else s.ttls k }
    .ok ((if allowed then 1 else 0, ratTrunc stored, capacity), s')

end Store

/-- `algorithm.Context` (drivers/algorithm/types.go). -/
structure Context where
  Allowed : Bool
  Limit : Int := 0
  Remaining : Int := 0
  Reset : Int := 0
  RetryAfter : Int := 0
deriving DecidableEq

/-- `FixedWindowLimiter.Allow(key, limit, window)` from
`drivers/algorithm/fixed_window.go`.  `nowNs` is the `time.Now()` instant
(nanoseconds) used for the `Reset` field. -/
def FixedWindowLimiter.Allow (f : Faults) (s : StoreState) (key : String)
    (limit : Int) (window : Duration) (nowNs : Int) :
    Except String (Context × StoreState) :=
  match Store.incr f s key with
  | .error e => .error ("递增计数失败: " ++ e)
  | .ok (count, s1) =>
    let afterExpire : Except String StoreState :=
      if count = 1 then
        match Store.expire f s1 key window with
        | .error e => .error ("设置过期时间失败: " ++ e)
        | .ok s2 => .ok s2
      else .ok s1
    match afterExpire with
    | .error e => .error e
    | .ok s2 =>
      match Store.ttl f s2 key with
      | .error e => .error ("获取TTL失败: " ++ e)
      | .ok t =>
        let reset := unixOfNanos (nowNs + t)
        let remaining0 := limit - count
        let remaining := if remaining0 < 0 then 0 else remaining0
        .ok ({ Allowed := decide (count ≤ limit)
               Limit := limit
               Remaining := remaining
               Reset := reset
               RetryAfter := durationSeconds t }, s2)

/-- `SlidingWindowLimiter.Allow(key, limit, window)` from
`drivers/algorithm/sliding_window.go`.  `nowNs` is `time.Now().UnixNano()`;
scores are exact integers (the Go code passes them through `float64`). -/
def SlidingWindowLimiter.Allow (f : Faults) (s : StoreState) (key : String)
    (limit : Int) (window : Duration) (nowNs : Int) :
    Except String (Context × StoreState) :=
  let windowStart := nowNs - window
  match Store.zremRangeByScore f s key 0 windowStart with
  | .error e => .error ("删除过期记录失败: " ++ e)
  | .ok s1 =>
    match Store.zcount f s1 key windowStart (2 * nowNs) with
    | .error e => .error ("统计请求数失败: " ++ e)
    | .ok count0 =>
      let allowed : Bool := decide (count0 < limit)
      let afterAdd : Except String StoreState :=
        if allowed then
          match Store.zadd f s1 key nowNs with
          | .error e => .error ("添加请求记录失败: " ++ e)
          | .ok s2 => .ok s2
        else .ok s1
      match afterAdd with
      | .error e => .error e
      | .ok s2 =>
        let count := if allowed then count0 + 1 else count0
        match Store.expire f s2 key (window * 2) with
        | .error e => .error ("设置过期时间失败: " ++ e)
        | .ok s3 =>
          let remaining0 := limit - count
          let remaining := if remaining0 < 0 then 0 else remaining0
          .ok ({ Allowed := allowed
                 Limit := limit
                 Remaining := remaining
                 Reset := unixOfNanos (nowNs + window)
                 RetryAfter := durationSeconds window }, s3)

/-- `TokenBucketLimiter.Allow(key, capacity, rate)` from
`drivers/algorithm/types.go`.  `now` is `time.Now().Unix()` (seconds). -/
def TokenBucketLimiter.Allow (f : Faults) (s : StoreState) (key : String)
    (capacity : Int) (rate : ℚ) (now : Int) :
    Except String (Context × StoreState) :=
  match Store.evalTokenBucket f s key capacity rate now with
  | .error e => .error ("执行Lua脚本失败: " ++ e)
  | .ok ((allowedInt, remaining, limit), s1) =>
    let allowed : Bool := decide (allowedInt = 1)
    let retryAfter : Int :=
      if allowed then 0
      else
        let tokensNeeded := 1 - remaining
        if 0 < tokensNeeded then
          let ra := ratTrunc ((tokensNeeded : ℚ) / rate)
          if ra < 1 then 1 else ra
        else 0
    .ok ({ Allowed := allowed
           Limit := limit
           Remaining := remaining
           Reset := now + ratTrunc ((capacity : ℚ) / rate)
           RetryAfter := retryAfter }, s1)

/-- `ratelimiter.Result` (types.go). -/
structure Result where
  Allowed : Bool
  Limit : Int := 0
  Remaining : Int := 0
  Reset : Int := 0
  RetryAfter : Int := 0
deriving DecidableEq

/-- `ratelimiter.Rule` (types.go).  `By` and `Algorithm` are Go string
types (`LimitBy`, `Algorithm`), kept as strings. -/
structure Rule where
  Name : String := ""
  Path : String := ""
  Method : String := ""
  By : String := ""
  Algorithm : String := ""
  Limit : Int := 0
  Window : Duration := 0
  Capacity : Int := 0
  Rate : ℚ := 0
  RecordViolation : Bool := false
  ViolationWeight : Int := 0

/-- The `Limiter` engine state after `NewFromConfig` (limiter.go): the
static ACL sets as membership predicates, the auto-ban parameters, global
rule and rule list.  `enabled` is `config.Default.Enabled`.  `globMatch`
models Go's `filepath.Match(pattern, path)` (standard library, outside this
repository) collapsed to its observable boolean: a malformed pattern makes
`matchPath` return false exactly as an error return does. -/
structure Limiter where
  enabled : Bool
  whitelistIPs : String → Bool
  whitelistUsers : String → Bool
  blacklistIPs : String → Bool
  blacklistUsers : String → Bool
  autoBanEnabled : Bool
  autoBanDimensions : String → Bool
  violationThreshold : Int
  violationWindow : Duration
  banDuration : Duration
  globalRule : Option Rule
  rules : List Rule
  globMatch : String → String → Bool

/-- `Limiter.buildKey` (limiter.go): rule name (or path) plus the
dimension suffix, joined with ":".  An unknown dimension (e.g. `custom`)
falls through the switch and adds no suffix. -/
def buildKey (rule : Rule) (path ip user : String) : String :=
  let first := if rule.Name = "" then path else rule.Name
  let parts : List String :=
    if rule.By = "ip" then [first, "ip", ip]
    else if rule.By = "user" then
      (if user = "" then [first, "ip", ip] else [first, "user", user])
    else if rule.By = "path" then [first, "path", path]
    else if rule.By = "global" then [first, "global"]
    else [first]
  String.intercalate ":" parts

/-- `Limiter.matchPath` (limiter.go): exact match first, otherwise
`filepath.Match`, with a pattern error counting as no match. -/
def Limiter.matchPath (l : Limiter) (pattern path : String) : Bool :=
  pattern == path || l.globMatch pattern path

/-- `Limiter.checkRule` (limiter.go): build the key, dispatch on the
rule's algorithm string, convert `algorithm.Context` to `Result`. -/
def Limiter.checkRule (f : Faults) (l : Limiter) (rule : Rule) (s : StoreState)
    (nowNs : Int) (path ip user : String) :
    Except String (Result × StoreState) :=
  let key := buildKey rule path ip user
  let dispatched : Except String (Context × StoreState) :=
    if rule.Algorithm = "fixed_window" then
      FixedWindowLimiter.Allow f s key rule.Limit rule.Window nowNs
    else if rule.Algorithm = "sliding_window" then
      SlidingWindowLimiter.Allow f s key rule.Limit rule.Window nowNs
    else if rule.Algorithm = "token_bucket" then
      TokenBucketLimiter.Allow f s key rule.Capacity rule.Rate (unixOfNanos nowNs)
    else .error ("未知的算法: " ++ rule.Algorithm)
  match dispatched with
  | .error e => .error e
  | .ok (ctx, s') =>
    .ok ({ Allowed := ctx.Allowed
           Limit := ctx.Limit
           Remaining := ctx.Remaining
           Reset := ctx.Reset
           RetryAfter := ctx.RetryAfter }, s')

/-- `Limiter.checkAndBan` (limiter.go): increment the violation counter
(by one, via `Incr`), set its TTL on first increment, and on reaching the
threshold set the blacklist flag with TTL `banDuration` and delete the
counter. -/
def Limiter.checkAndBan (f : Faults) (l : Limiter) (s : StoreState)
    (dimension identifier : String) : Except String StoreState :=
  let violationKey := "violation:" ++ dimension ++ ":" ++ identifier
  let blacklistKey := "blacklist:" ++ dimension ++ ":" ++ identifier
  match Store.incr f s violationKey with
  | .error e => .error e
  | .ok (count, s1) =>
    let afterExpire : Except String StoreState :=
      if count = 1 then Store.expire f s1 violationKey l.violationWindow
      else .ok s1
    match afterExpire with
    | .error e => .error e
    | .ok s2 =>
      if l.violationThreshold ≤ count then
        match Store.set f s2 blacklistKey 1 with
        | .error e => .error e
        | .ok s3 =>
          match Store.expire f s3 blacklistKey l.banDuration with
          | .error e => .error e
          | .ok s4 => Store.del f s4 violationKey
      else .ok s2

/-- `Limiter.recordViolation` (limiter.go): when auto-ban is enabled,
run `checkAndBan` for each enabled dimension with a non-empty identifier.
Note the source never consults the denying rule's `RecordViolation` or
`ViolationWeight` fields. -/
def Limiter.recordViolation (f : Faults) (l : Limiter) (s : StoreState)
    (ip user : String) : Except String StoreState :=
  if !l.autoBanEnabled then .ok s
  else
    let afterIP : Except String StoreState :=
      if ip ≠ "" ∧ l.autoBanDimensions "ip" then Limiter.checkAndBan f l s "ip" ip
      else .ok s
    match afterIP with
    | .error e => .error e
    | .ok s1 =>
      if user ≠ "" ∧ l.autoBanDimensions "user" then Limiter.checkAndBan f l s1 "user" user
      else .ok s1

/-- The rule-list loop of `Limiter.Check` (limiter.go, step 6): skip rules
whose path or method does not match; on a deny record the violation and
return; on an allow continue; when no rule denies return allowed. -/
def Limiter.checkRulesLoop (f : Faults) (l : Limiter) (nowNs : Int)
    (path method ip user : String) :
    List Rule → StoreState → Except String (Result × StoreState)
  | [], s => .ok ({ Allowed := true }, s)
  | rule :: rest, s =>
    if !(l.matchPath rule.Path path) then
      Limiter.checkRulesLoop f l nowNs path method ip user rest s
    else if rule.Method ≠ "" ∧ rule.Method ≠ method then
      Limiter.checkRulesLoop f l nowNs path method ip user rest s
    else
      match Limiter.checkRule f l rule s nowNs path ip user with
      | .error e => .error e
      | .ok (result, s1) =>
        if result.Allowed then
          Limiter.checkRulesLoop f l nowNs path method ip user rest s1
        else
          match Limiter.recordViolation f l s1 ip user with
          | .error e => .error ("记录违规失败: " ++ e)
          | .ok s2 => .ok (result, s2)

/-- Steps 5-6 of `Limiter.Check`: the global rule (when configured), then
the rule list. -/
def Limiter.checkGlobalAndRules (f : Faults) (l : Limiter) (s : StoreState)
    (nowNs : Int) (path method ip user : String) :
    Except String (Result × StoreState) :=
  match l.globalRule with
  | none => Limiter.checkRulesLoop f l nowNs path method ip user l.rules s
  | some g =>
    match Limiter.checkRule f l g s nowNs path ip user with
    | .error e => .error e
    | .ok (result, s1) =>
      if !result.Allowed then
        match Limiter.recordViolation f l s1 ip user with
        | .error e => .error ("记录违规失败: " ++ e)
        | .ok s2 => .ok (result, s2)
      else Limiter.checkRulesLoop f l nowNs path method ip user l.rules s1

/-- The IP-dimension stage of `Limiter.Check` (step 3): static blacklist,
dynamic blacklist (when the `ip` auto-ban dimension is enabled), then
static whitelist; falls through to the rate-limit stages. -/
def Limiter.checkIPStage (f : Faults) (l : Limiter) (s : StoreState)
    (nowNs : Int) (path method ip user : String) :
    Except String (Result × StoreState) :=
  if ip = "" then Limiter.checkGlobalAndRules f l s nowNs path method ip user
  else if l.blacklistIPs ip then .ok ({ Allowed := false }, s)
  else if l.autoBanEnabled && l.autoBanDimensions "ip" then
    match Store.get f s ("blacklist:ip:" ++ ip) with
    | .error e => .error ("检查IP黑名单失败: " ++ e)
    | .ok banned =>
      if 0 < banned then .ok ({ Allowed := false }, s)
      else if l.whitelistIPs ip then .ok ({ Allowed := true }, s)
      else Limiter.checkGlobalAndRules f l s nowNs path method ip user
  else if l.whitelistIPs ip then .ok ({ Allowed := true }, s)
  else Limiter.checkGlobalAndRules f l s nowNs path method ip user

/-- `Limiter.Check(path, method, ip, userID)` (limiter.go): the enabled
gate, the user dimension (static blacklist, dynamic blacklist when the
`user` dimension is enabled, static whitelist), then the IP stage and the
rate-limit stages. -/
def Limiter.Check (f : Faults) (l : Limiter) (s : StoreState) (nowNs : Int)
    (path method ip user : String) : Except String (Result × StoreState) :=
  if !l.enabled then .ok ({ Allowed := true }, s)
  else if user ≠ "" then
    if l.blacklistUsers user then .ok ({ Allowed := false }, s)
    else if l.autoBanEnabled && l.autoBanDimensions "user" then
      match Store.get f s ("blacklist:user:" ++ user) with
      | .error e => .error ("检查用户黑名单失败: " ++ e)
      | .ok banned =>
        if 0 < banned then .ok ({ Allowed := false }, s)
        else if l.whitelistUsers user then .ok ({ Allowed := true }, s)
        else Limiter.checkIPStage f l s nowNs path method ip user
    else if l.whitelistUsers user then .ok ({ Allowed := true }, s)
    else Limiter.checkIPStage f l s nowNs path method ip user
  else Limiter.checkIPStage f l s nowNs path method ip user

/-- Context of a successful algorithm call, `none` on error. -/
def ctxOf (r : Except String (Context × StoreState)) : Option Context :=
  match r with
  | .ok p => some p.1
  | .error _ => none

/-- Iterate the fault-free fixed-window `Allow` `n` times at one instant,
collecting the `Allowed` verdicts (the error branch is unreachable under
`noFaults`). -/
def fixedWindowRun (key : String) (limit : Int) (window : Duration) (nowNs : Int) :
    Nat → StoreState → List Bool × StoreState
  | 0, s => ([], s)
  | Nat.succ n, s =>
    match FixedWindowLimiter.Allow noFaults s key limit window nowNs with
    | .ok (ctx, s') =>
      let t := fixedWindowRun key limit window nowNs n s'
      (ctx.Allowed :: t.1, t.2)
    | .error _ => ([], s)

/-- Fold the fault-free token-bucket `Allow` over a list of call instants,
keeping only the store state. -/
def tokenBucketRun (key : String) (capacity : Int) (rate : ℚ) :
    List Int → StoreState → StoreState
  | [], s => s
  | now :: rest, s =>
    match TokenBucketLimiter.Allow noFaults s key capacity rate now with
    | .ok (_, s') => tokenBucketRun key capacity rate rest s'
    | .error _ => s

/-- Iterate the fault-free engine `Check` `n` times at one instant,
collecting the returned `Result`s (the error branch is unreachable under
`noFaults`). -/
def checkRun (l : Limiter) (nowNs : Int) (path method ip user : String) :
    Nat → StoreState → List Result × StoreState
  | 0, s => ([], s)
  | Nat.succ n, s =>
    match Limiter.Check noFaults l s nowNs path method ip user with
    | .ok (r, s') =>
      let t := checkRun l nowNs path method ip user n s'
      (r :: t.1, t.2)
    | .error _ => ([], s)

/-- Count of stored timestamps in the half-open score interval `(a, b]`.
This follows the specification's words for the sliding window ("Count
members in `(now − window, now]`") and is compared against what the code
computes. -/
def slidingSpecCount (t : Finset Int) (a b : Int) : Int :=
  ((t.filter (fun x => a < x ∧ x ≤ b)).card : Int)

/-- The refill formula of the token-bucket script:
`min(capacity, tokens + max(0, now − last) · rate)`. -/
def refillTokens (capacity : Int) (rate : ℚ) (tokens : ℚ) (last now : Int) : ℚ :=
  min (capacity : ℚ) (tokens + ((max 0 (now - last) : Int) : ℚ) * rate)

/-- The token-bucket invariant on one key of the store: when the bucket
hash exists, its token count lies in `[0, capacity]`. -/
def bucketInRange (s : StoreState) (key : String) (capacity : Int) : Prop :=
  match s.buckets key with
  | none => True
  | some p => 0 ≤ p.1 ∧ p.1 ≤ (capacity : ℚ)

/-- A store whose only key is a sliding-window log holding the single
timestamp 150. -/
def oneEventStore : StoreState :=
  { emptyStore with zsets := fun k => if k = "k" then {150} else ∅ }

/-- A store whose only key is a token-bucket hash with 0 tokens last
refilled at second 10. -/
def drainedBucketStore : StoreState :=
  { emptyStore with buckets := fun k => if k = "k" then some (0, 10) else none }

/-- A fixed-window rule on path `/a` per client IP, limit 1 per minute,
with violation recording explicitly disabled. -/
def ruleNoRecord : Rule :=
  { Path := "/a", By := "ip", Algorithm := "fixed_window",
    Limit := 1, Window := 60 * nsPerSec,
    RecordViolation := false, ViolationWeight := 1 }

/-- An engine with auto-ban enabled on the `ip` dimension (threshold 10)
whose single rule has `RecordViolation = false`. -/
def limiterNoRecord : Limiter :=
  { enabled := true
    whitelistIPs := fun _ => false
    whitelistUsers := fun _ => false
    blacklistIPs := fun _ => false
    blacklistUsers := fun _ => false
    autoBanEnabled := true
    autoBanDimensions := fun d => d == "ip"
    violationThreshold := 10
    violationWindow := 300 * nsPerSec
    banDuration := 3600 * nsPerSec
    globalRule := none
    rules := [ruleNoRecord]
    globMatch := fun _ _ => false }

/-- A fixed-window rule on path `/a` per client IP, limit 1 per minute,
recording violations with weight 2. -/
def ruleWeighted : Rule :=
  { Path := "/a", By := "ip", Algorithm := "fixed_window",
    Limit := 1, Window := 60 * nsPerSec,
    RecordViolation := true, ViolationWeight := 2 }

/-- An engine with auto-ban enabled on the `ip` dimension, violation
threshold 3 and ban duration one hour, whose single rule records
violations with weight 2. -/
def limiterWeighted : Limiter :=
  { enabled := true
    whitelistIPs := fun _ => false
    whitelistUsers := fun _ => false
    blacklistIPs := fun _ => false
    blacklistUsers := fun _ => false
    autoBanEnabled := true
    autoBanDimensions := fun d => d == "ip"
    violationThreshold := 3
    violationWindow := 300 * nsPerSec
    banDuration := 3600 * nsPerSec
    globalRule := none
    rules := [ruleWeighted]
    globMatch := fun _ _ => false }

/-- An enabled engine with no ACL entries and no rules. -/
def plainLimiter : Limiter :=
  { enabled := true
    whitelistIPs := fun _ => false
    whitelistUsers := fun _ => false
    blacklistIPs := fun _ => false
    blacklistUsers := fun _ => false
    autoBanEnabled := false
    autoBanDimensions := fun _ => false
    violationThreshold := 0
    violationWindow := 0
    banDuration := 0
    globalRule := none
    rules := []
    globMatch := fun _ _ => false }

/-- A rule whose algorithm string is one of the three implemented
algorithms (the config loader rejects anything else). -/
def knownAlgorithm (r : Rule) : Prop :=
  r.Algorithm = "fixed_window" ∨ r.Algorithm = "sliding_window"
    ∨ r.Algorithm = "token_bucket"

/-- An engine whose global rule and rule list carry only known algorithm
strings, as the validated config guarantees. -/
def validRules (l : Limiter) : Prop :=
  (∀ g, l.globalRule = some g → knownAlgorithm g) ∧ ∀ r ∈ l.rules, knownAlgorithm r

/-- An enabled engine with empty ACL sets and no rules, but with the
`user` auto-ban dimension enabled so the dynamic blacklist is consulted. -/
def userDimLimiter : Limiter :=
  { plainLimiter with
      autoBanEnabled := true
      autoBanDimensions := fun d => d == "user" }

/-- A store backend that fails exactly on `Get("blacklist:user:bob")`. -/
def userGetFaults : Faults :=
  { noFaults with
      onGet := fun k => if k = "blacklist:user:bob" then some "boom" else none }

/-- An enabled engine with user `admin` whitelisted, user `bad`
blacklisted, and IP `10.0.0.1` blacklisted; auto-ban disabled. -/
def aclLimiter : Limiter :=
  { enabled := true
    whitelistIPs := fun _ => false
    whitelistUsers := fun u => u == "admin"
    blacklistIPs := fun i => i == "10.0.0.1"
    blacklistUsers := fun u => u == "bad"
    autoBanEnabled := false
    autoBanDimensions := fun _ => false
    violationThreshold := 0
    violationWindow := 0
    banDuration := 0
    globalRule := none
    rules := []
    globMatch := fun _ _ => false }

/-- One fault-free fixed-window call: the counter is incremented, the
verdict is "post-increment count ≤ limit", and a fresh key gets TTL
`window`. -/
lemma fixedWindow_step (s : StoreState) (key : String) (limit : Int)
    (window : Duration) (nowNs : Int) :
    ∃ ctx s',
      FixedWindowLimiter.Allow noFaults s key limit window nowNs = .ok (ctx, s') ∧
      ctx.Allowed = decide (s.counters key + 1 ≤ limit) ∧
      s'.counters key = s.counters key + 1 ∧
      (s.counters key = 0 → s'.ttls key = some window) := by
  by_cases h1 : s.counters key + 1 = 1
  · simp only [FixedWindowLimiter.Allow, Store.incr, Store.expire, Store.ttl,
      Store.ttlValue, noFaults, h1]
    refine ⟨_, _, rfl, ?_, ?_, ?_⟩ <;> simp [h1]
  · simp only [FixedWindowLimiter.Allow, Store.incr, Store.expire, Store.ttl,
      Store.ttlValue, noFaults]
    rw [if_neg h1]
    refine ⟨_, _, rfl, ?_, ?_, ?_⟩
    · simp
    · simp
    · intro h0
      exact absurd (by omega : s.counters key + 1 = 1) h1

/-- Verdict of the i-th of n fault-free fixed-window calls started from
state `s`: admitted iff the pre-existing count plus i+1 is within the
limit. -/
lemma fixedWindowRun_verdict (key : String) (limit : Int) (window : Duration)
    (nowNs : Int) :
    ∀ (n i : Nat) (s : StoreState), i < n →
      (fixedWindowRun key limit window nowNs n s).1.get? i
        = some (decide (s.counters key + (i : Int) + 1 ≤ limit)) := by
  intro n
  induction n with
  | zero => intro i s h; exact absurd h (Nat.not_lt_zero i)
  | succ n ih =>
    intro i s h
    obtain ⟨ctx, s', heq, hA, hc, -⟩ := fixedWindow_step s key limit window nowNs
    cases i with
    | zero =>
      simp only [fixedWindowRun, heq]
      rw [List.get?_cons_zero, hA]
      congr 1
      simp only [decide_eq_decide]
      push_cast
      omega
    | succ i =>
      have h' : i < n := by omega
      simp only [fixedWindowRun, heq]
      rw [List.get?_cons_succ, ih i s' h', hc]
      congr 1
      simp only [decide_eq_decide]
      push_cast
      omega

/-- C1 (confirmed).  Fixed window exact counting: each fault-free `Allow`
increments the counter and admits iff the post-increment count is ≤ L; on
a fresh key the first call sets the key's TTL to `window`; and of the
first L+k sequential calls within one window exactly the first L are
admitted and the remaining k denied. -/
theorem fixedWindow_exact_counting (key : String) (window : Duration)
    (nowNs : Int) (L k : Int) (s0 : StoreState)
    (hL : 0 < L) (hk : 0 ≤ k) (h0 : s0.counters key = 0) :
    (∀ i : Nat, i < (L + k).toNat →
        (fixedWindowRun key L window nowNs (L + k).toNat s0).1.get? i
          = some (decide ((i : Int) < L)))
    ∧ (∃ ctx s',
        FixedWindowLimiter.Allow noFaults s0 key L window nowNs = .ok (ctx, s') ∧
        s'.ttls key = some window)
    ∧ (∀ s : StoreState, ∃ ctx s',
        FixedWindowLimiter.Allow noFaults s key L window nowNs = .ok (ctx, s') ∧
        s'.counters key = s.counters key + 1 ∧
        ctx.Allowed = decide (s.counters key + 1 ≤ L)) := by
  refine ⟨?_, ?_, ?_⟩
  · intro i hi
    rw [fixedWindowRun_verdict key L window nowNs _ i s0 hi, h0]
    congr 1
    simp only [decide_eq_decide]
    omega
  · obtain ⟨ctx, s', heq, -, -, ht⟩ := fixedWindow_step s0 key L window nowNs
    exact ⟨ctx, s', heq, ht h0⟩
  · intro s
    obtain ⟨ctx, s', heq, hA, hc, -⟩ := fixedWindow_step s key L window nowNs
    exact ⟨ctx, s', heq, hc, hA⟩

/-- C1 witness: for limit 3 and 5 calls on a fresh key, the 4th call (index
3) is denied. -/
theorem fixedWindow_exact_counting_witness :
    (fixedWindowRun "k" 3 (60 * nsPerSec) 0 5 emptyStore).1.get? 3 = some false :=
  (fixedWindow_exact_counting "k" (60 * nsPerSec) 0 3 2 emptyStore
    (by decide) (by decide) rfl).1 3 (by decide)

/-- Every allowed result of the rule-list loop is the bare
`{Allowed := true}` literal (rule results are returned only on deny). -/
lemma checkRulesLoop_ok_allowed (f : Faults) (l : Limiter) (nowNs : Int)
    (path method ip user : String) :
    ∀ (rules : List Rule) (s : StoreState) (r : Result) (s' : StoreState),
      Limiter.checkRulesLoop f l nowNs path method ip user rules s = .ok (r, s') →
      r.Allowed = true → r = { Allowed := true } := by
  intro rules
  induction rules with
  | nil =>
    intro s r s' h _
    simp only [Limiter.checkRulesLoop] at h
    cases h
    rfl
  | cons rule rest ih =>
    intro s r s' h hA
    simp only [Limiter.checkRulesLoop] at h
    split at h
    · exact ih s r s' h hA
    · split at h
      · exact ih s r s' h hA
      · split at h
        · exact Except.noConfusion h
        · rename_i result s1 _
          split at h
          · exact ih s1 r s' h hA
          · rename_i hres
            split at h
            · exact Except.noConfusion h
            · cases h
              exact absurd hA hres

/-- Every allowed result of the global-rule stage plus the rule list is
the bare `{Allowed := true}` literal. -/
lemma checkGlobalAndRules_ok_allowed (f : Faults) (l : Limiter) (s : StoreState)
    (nowNs : Int) (path method ip user : String) (r : Result) (s' : StoreState)
    (h : Limiter.checkGlobalAndRules f l s nowNs path method ip user = .ok (r, s'))
    (hA : r.Allowed = true) : r = { Allowed := true } := by
  simp only [Limiter.checkGlobalAndRules] at h
  split at h
  · exact checkRulesLoop_ok_allowed f l nowNs path method ip user l.rules s r s' h hA
  · split at h
    · exact Except.noConfusion h
    · rename_i result s1 _
      split at h
      · rename_i hres
        split at h
        · exact Except.noConfusion h
        · cases h
          simp only [Bool.not_eq_true'] at hres
          rw [hA] at hres
          exact Bool.noConfusion hres
      · exact checkRulesLoop_ok_allowed f l nowNs path method ip user l.rules s1 r s' h hA

/-- Every allowed result of the IP stage onward is the bare
`{Allowed := true}` literal. -/
lemma checkIPStage_ok_allowed (f : Faults) (l : Limiter) (s : StoreState)
    (nowNs : Int) (path method ip user : String) (r : Result) (s' : StoreState)
    (h : Limiter.checkIPStage f l s nowNs path method ip user = .ok (r, s'))
    (hA : r.Allowed = true) : r = { Allowed := true } := by
  simp only [Limiter.checkIPStage] at h
  split at h
  · exact checkGlobalAndRules_ok_allowed f l s nowNs path method ip user r s' h hA
  · split at h
    · cases h; simp at hA
    · split at h
      · split at h
        · exact Except.noConfusion h
        · split at h
          · cases h; simp at hA
          · split at h
            · cases h; rfl
            · exact checkGlobalAndRules_ok_allowed f l s nowNs path method ip user r s' h hA
      · split at h
        · cases h; rfl
        · exact checkGlobalAndRules_ok_allowed f l s nowNs path method ip user r s' h hA

/-- Every allowed result of `Check` is the bare `{Allowed := true}`
literal: allowed rule evaluations are discarded and never returned. -/
lemma check_ok_allowed (f : Faults) (l : Limiter) (s : StoreState)
    (nowNs : Int) (path method ip user : String) (r : Result) (s' : StoreState)
    (h : Limiter.Check f l s nowNs path method ip user = .ok (r, s'))
    (hA : r.Allowed = true) : r = { Allowed := true } := by
  simp only [Limiter.Check] at h
  split at h
  · cases h; rfl
  · split at h
    · split at h
      · cases h; simp at hA
      · split at h
        · split at h
          · exact Except.noConfusion h
          · split at h
            · cases h; simp at hA
            · split at h
              · cases h; rfl
              · exact checkIPStage_ok_allowed f l s nowNs path method ip user r s' h hA
        · split at h
          · cases h; rfl
          · exact checkIPStage_ok_allowed f l s nowNs path method ip user r s' h hA
    · exact checkIPStage_ok_allowed f l s nowNs path method ip user r s' h hA

/-- C10 (confirmed).  Whenever `Check` returns an allowed `Result` —
policy disabled, whitelist hit, or every matching rule allowed — all its
quota fields (`Limit`, `Remaining`, `Reset`, `RetryAfter`) are zero; the
quota fields of rules that evaluated to allow never reach the caller. -/
theorem check_allowed_zero_fields (f : Faults) (l : Limiter) (s : StoreState)
    (nowNs : Int) (path method ip user : String) (r : Result) (s' : StoreState)
    (h : Limiter.Check f l s nowNs path method ip user = .ok (r, s'))
    (hA : r.Allowed = true) :
    r.Limit = 0 ∧ r.Remaining = 0 ∧ r.Reset = 0 ∧ r.RetryAfter = 0 := by
  rw [check_ok_allowed f l s nowNs path method ip user r s' h hA]
  exact ⟨rfl, rfl, rfl, rfl⟩

/-- C10 witness: an enabled engine with no rules allows a request and all
quota fields of the result are zero. -/
theorem check_allowed_zero_fields_witness :
    ({ Allowed := true } : Result).Limit = 0
    ∧ ({ Allowed := true } : Result).Remaining = 0
    ∧ ({ Allowed := true } : Result).Reset = 0
    ∧ ({ Allowed := true } : Result).RetryAfter = 0 :=
  check_allowed_zero_fields noFaults plainLimiter emptyStore 0 "/x" "GET" "" ""
    { Allowed := true } emptyStore rfl rfl

/-- An allowed token-bucket call always reports retry-after 0. -/
lemma tokenBucket_allowed_retry_after (f : Faults) (s : StoreState) (key : String)
    (capacity : Int) (rate : ℚ) (now : Int) (ctx : Context) (s' : StoreState)
    (h : TokenBucketLimiter.Allow f s key capacity rate now = .ok (ctx, s'))
    (hA : ctx.Allowed = true) : ctx.RetryAfter = 0 := by
  simp only [TokenBucketLimiter.Allow] at h
  split at h
  · exact Except.noConfusion h
  · cases h
    simp only [Context.Allowed] at hA
    simp [hA]

/-- A fixed-window call always reports retry-after = the key's TTL in
seconds, allowed or not. -/
lemma fixedWindow_retry_after (f : Faults) (s : StoreState) (key : String)
    (limit : Int) (window : Duration) (nowNs : Int) (ctx : Context) (s' : StoreState)
    (h : FixedWindowLimiter.Allow f s key limit window nowNs = .ok (ctx, s')) :
    ctx.RetryAfter = durationSeconds (Store.ttlValue s' key) := by
  simp only [FixedWindowLimiter.Allow] at h
  split at h
  · exact Except.noConfusion h
  · split at h
    · exact Except.noConfusion h
    · split at h
      · exact Except.noConfusion h
      · rename_i t heq2
        cases h
        simp only [Store.ttl] at heq2
        split at heq2
        · exact Except.noConfusion heq2
        · cases heq2
          rfl

/-- A sliding-window call always reports retry-after = window seconds,
allowed or not. -/
lemma slidingWindow_retry_after (f : Faults) (s : StoreState) (key : String)
    (limit : Int) (window : Duration) (nowNs : Int) (ctx : Context) (s' : StoreState)
    (h : SlidingWindowLimiter.Allow f s key limit window nowNs = .ok (ctx, s')) :
    ctx.RetryAfter = durationSeconds window := by
  simp only [SlidingWindowLimiter.Allow] at h
  split at h
  · exact Except.noConfusion h
  · split at h
    · exact Except.noConfusion h
    · split at h
      · exact Except.noConfusion h
      · split at h
        · exact Except.noConfusion h
        · cases h
          rfl

/-- C5 counterexample: the very first fixed-window call on a fresh key
with limit 3 and window 60s is allowed yet returns retry_after = 60 ≠ 0,
refuting "Allowed = true implies retry_after_seconds = 0" for the
fixed-window Allow. -/
theorem allowed_retry_after_counterexample :
    (ctxOf (FixedWindowLimiter.Allow noFaults emptyStore "k" 3 (60 * nsPerSec) 0)).map
        (fun c => (c.Allowed, c.RetryAfter)) = some (true, 60)
    ∧ (60 : Int) ≠ 0 := by
  constructor
  · decide
  · decide

/-- C5 (corrected).  "Allowed implies retry_after = 0" holds for the
engine's `Check` results and for the token-bucket Allow; the fixed-window
Allow instead always returns retry_after = the key's TTL in seconds and
the sliding-window Allow always returns retry_after = window seconds,
regardless of the verdict. -/
theorem allowed_retry_after_by_component :
    (∀ (f : Faults) (l : Limiter) (s : StoreState) (nowNs : Int)
        (path method ip user : String) (r : Result) (s' : StoreState),
        Limiter.Check f l s nowNs path method ip user = .ok (r, s') →
        r.Allowed = true → r.RetryAfter = 0)
    ∧ (∀ (f : Faults) (s : StoreState) (key : String) (capacity : Int) (rate : ℚ)
        (now : Int) (ctx : Context) (s' : StoreState),
        TokenBucketLimiter.Allow f s key capacity rate now = .ok (ctx, s') →
        ctx.Allowed = true → ctx.RetryAfter = 0)
    ∧ (∀ (f : Faults) (s : StoreState) (key : String) (limit : Int)
        (window : Duration) (nowNs : Int) (ctx : Context) (s' : StoreState),
        FixedWindowLimiter.Allow f s key limit window nowNs = .ok (ctx, s') →
        ctx.RetryAfter = durationSeconds (Store.ttlValue s' key))
    ∧ (∀ (f : Faults) (s : StoreState) (key : String) (limit : Int)
        (window : Duration) (nowNs : Int) (ctx : Context) (s' : StoreState),
        SlidingWindowLimiter.Allow f s key limit window nowNs = .ok (ctx, s') →
        ctx.RetryAfter = durationSeconds window) := by
  refine ⟨?_, ?_, ?_, ?_⟩
  · intro f l s nowNs path method ip user r s' h hA
    rw [check_ok_allowed f l s nowNs path method ip user r s' h hA]
  · exact tokenBucket_allowed_retry_after
  · exact fixedWindow_retry_after
  · exact slidingWindow_retry_after

/-- C5 witness: an allowed engine decision carries retry_after 0. -/
theorem allowed_retry_after_by_component_witness :
    ({ Allowed := true } : Result).RetryAfter = 0 :=
  allowed_retry_after_by_component.1 noFaults plainLimiter emptyStore 0 "/y" "GET" "" ""
    { Allowed := true } emptyStore rfl rfl

/-- Evicting `[0, W]` and then counting scores in the inclusive range
`[W, n]` counts exactly the scores in the half-open range `(W, n]` of the
original log, provided `0 ≤ W`. -/
lemma evicted_count_eq (t : Finset Int) (W n : Int) (hW : 0 ≤ W) :
    ((t.filter (fun x => ¬(0 ≤ x ∧ x ≤ W))).filter (fun x => W ≤ x ∧ x ≤ n)).card
      = (t.filter (fun x => W < x ∧ x ≤ n)).card := by
  rw [Finset.filter_filter]
  congr 1
  apply Finset.filter_congr
  intro x _
  constructor
  · intro hx
    omega
  · intro hx
    omega

/-- C2 counterexample: with a stored (future-dated) timestamp 150, a call
at now = 100 with window 50 and limit 1 is denied by the code, although the
count of members in the claim's interval `(now − window, now] = (50, 100]`
is 0 < 1, under which the claim says the call is admitted. -/
theorem sliding_window_interval_counterexample :
    (ctxOf (SlidingWindowLimiter.Allow noFaults oneEventStore "k" 1 50 100)).map
        Context.Allowed = some false
    ∧ slidingSpecCount ({150} : Finset Int) (100 - 50) 100 = 0
    ∧ ((0 : Int) < 1) :=
  ⟨by decide, by decide, by decide⟩

/-- C2 (corrected).  A sliding-window call first evicts members with score
in `[0, now − window]`, then admits iff the count of stored timestamps in
the half-open interval `(now − window, 2·now]` — not `(now − window, now]`
— is < limit, and on admission adds a member at score now (stated for
`window ≤ now`, which always holds for epoch timestamps). -/
theorem sliding_window_semantics (s : StoreState) (key : String) (limit : Int)
    (window : Duration) (nowNs : Int) (hw : 0 ≤ nowNs - window) :
    ∃ ctx s',
      SlidingWindowLimiter.Allow noFaults s key limit window nowNs = .ok (ctx, s') ∧
      ctx.Allowed = decide (slidingSpecCount (s.zsets key) (nowNs - window) (2 * nowNs) < limit) ∧
      s'.zsets key =
        (if slidingSpecCount (s.zsets key) (nowNs - window) (2 * nowNs) < limit then
          insert nowNs ((s.zsets key).filter (fun x => ¬(0 ≤ x ∧ x ≤ nowNs - window)))
        else
          (s.zsets key).filter (fun x => ¬(0 ≤ x ∧ x ≤ nowNs - window))) := by
  have hcount :
      (((s.zsets key).filter (fun x => ¬(0 ≤ x ∧ x ≤ nowNs - window))).filter
          (fun x => nowNs - window ≤ x ∧ x ≤ 2 * nowNs)).card
        = ((s.zsets key).filter (fun x => nowNs - window < x ∧ x ≤ 2 * nowNs)).card :=
    evicted_count_eq (s.zsets key) (nowNs - window) (2 * nowNs) hw
  by_cases hc : slidingSpecCount (s.zsets key) (nowNs - window) (2 * nowNs) < limit
  · simp only [slidingSpecCount] at hc
    simp only [SlidingWindowLimiter.Allow, Store.zremRangeByScore, Store.zcount,
      Store.zadd, Store.expire, noFaults, eq_self_iff_true, if_true, slidingSpecCount]
    rw [hcount, decide_eq_true hc]
    refine ⟨_, _, rfl, ?_, ?_⟩
    · simp [decide_eq_true hc]
    · simp [hc]
  · simp only [slidingSpecCount] at hc
    simp only [SlidingWindowLimiter.Allow, Store.zremRangeByScore, Store.zcount,
      Store.zadd, Store.expire, noFaults, eq_self_iff_true, if_true, slidingSpecCount]
    rw [hcount, decide_eq_false hc]
    refine ⟨_, _, rfl, ?_, ?_⟩
    · simp [decide_eq_false hc]
    · simp [hc]

/-- C2 witness: on an empty log at now = 100 with window 50 and limit 2,
the call succeeds and behaves as the amended semantics states. -/
theorem sliding_window_semantics_witness :
    ∃ ctx s',
      SlidingWindowLimiter.Allow noFaults emptyStore "w" 2 50 100 = .ok (ctx, s') ∧
      ctx.Allowed = decide (slidingSpecCount (emptyStore.zsets "w") (100 - 50) (2 * 100) < 2) ∧
      s'.zsets "w" =
        (if slidingSpecCount (emptyStore.zsets "w") (100 - 50) (2 * 100) < 2 then
          insert 100 ((emptyStore.zsets "w").filter (fun x => ¬(0 ≤ x ∧ x ≤ 100 - 50)))
        else
          (emptyStore.zsets "w").filter (fun x => ¬(0 ≤ x ∧ x ≤ 100 - 50))) :=
  sliding_window_semantics emptyStore "w" 2 50 100 (by decide)

/-- C4 (confirmed).  ACL precedence in `Check`: a non-empty user in the
static user whitelist that is neither statically nor dynamically
user-banned is allowed no matter what the IP lists say (the IP stage is
never reached); conversely a user in the static user blacklist is denied
no matter what the IP lists say.  "Not dynamically banned" means the
dynamic lookup, when the `user` auto-ban dimension is enabled, succeeds
with a non-positive value. -/
theorem acl_user_precedence (f : Faults) (l : Limiter) (s : StoreState)
    (nowNs : Int) (path method ip user : String)
    (henabled : l.enabled = true) (hu : user ≠ "") :
    (l.whitelistUsers user = true → l.blacklistUsers user = false →
      ((l.autoBanEnabled && l.autoBanDimensions "user") = true →
        f.onGet ("blacklist:user:" ++ user) = none
        ∧ s.counters ("blacklist:user:" ++ user) ≤ 0) →
      Limiter.Check f l s nowNs path method ip user = .ok ({ Allowed := true }, s))
    ∧ (l.blacklistUsers user = true →
      Limiter.Check f l s nowNs path method ip user = .ok ({ Allowed := false }, s)) := by
  constructor
  · intro hwu hbu hdyn
    by_cases hab : (l.autoBanEnabled && l.autoBanDimensions "user") = true
    · obtain ⟨hf, hv⟩ := hdyn hab
      have hnb : ¬(0 < s.counters ("blacklist:user:" ++ user)) := by omega
      simp [Limiter.Check, henabled, hu, hbu, hab, Store.get, hf, hnb, hwu]
    · simp only [Bool.not_eq_true] at hab
      simp [Limiter.Check, henabled, hu, hbu, hab, hwu]
  · intro hbu
    simp [Limiter.Check, henabled, hu, hbu]

/-- C4 witness: with IP 10.0.0.1 statically blacklisted, the whitelisted
user `admin` is allowed from that IP, while the blacklisted user `bad` is
denied. -/
theorem acl_user_precedence_witness :
    Limiter.Check noFaults aclLimiter emptyStore 0 "/x" "GET" "10.0.0.1" "admin"
      = .ok ({ Allowed := true }, emptyStore)
    ∧ Limiter.Check noFaults aclLimiter emptyStore 0 "/x" "GET" "10.0.0.1" "bad"
      = .ok ({ Allowed := false }, emptyStore) :=
  ⟨(acl_user_precedence noFaults aclLimiter emptyStore 0 "/x" "GET" "10.0.0.1" "admin"
      rfl (by decide)).1 rfl rfl (by decide),
   (acl_user_precedence noFaults aclLimiter emptyStore 0 "/x" "GET" "10.0.0.1" "bad"
      rfl (by decide)).2 rfl⟩

/-- A successful fixed-window call is fault-independent: if it returns
`.ok` under any fault oracle, the fault-free call returns the same value
(every operation on the path succeeded, and operation results depend only
on the store state). -/
lemma fixedWindow_ok_faultfree (f : Faults) (s : StoreState) (key : String)
    (limit : Int) (window : Duration) (nowNs : Int)
    (x : Context × StoreState)
    (h : FixedWindowLimiter.Allow f s key limit window nowNs = .ok x) :
    FixedWindowLimiter.Allow noFaults s key limit window nowNs = .ok x := by
  rcases hI : f.onIncr key with _ | e
  · by_cases h1 : s.counters key + 1 = 1
    · rcases hE : f.onExpire key with _ | e
      · rcases hT : f.onTTL key with _ | e
        · simp [FixedWindowLimiter.Allow, Store.incr, Store.expire, Store.ttl,
            Store.ttlValue, noFaults, hI, hE, hT, h1] at h ⊢
          exact h
        · simp [FixedWindowLimiter.Allow, Store.incr, Store.expire, Store.ttl,
            hI, hE, hT, h1] at h
      · simp [FixedWindowLimiter.Allow, Store.incr, Store.expire, hI, hE, h1] at h
    · rcases hT : f.onTTL key with _ | e
      · simp [FixedWindowLimiter.Allow, Store.incr, Store.expire, Store.ttl,
          Store.ttlValue, noFaults, hI, hT, h1] at h ⊢
        exact h
      · simp [FixedWindowLimiter.Allow, Store.incr, Store.expire, Store.ttl,
          hI, hT, h1] at h
  · simp [FixedWindowLimiter.Allow, Store.incr, hI] at h

/-- A successful sliding-window call is fault-independent. -/
lemma slidingWindow_ok_faultfree (f : Faults) (s : StoreState) (key : String)
    (limit : Int) (window : Duration) (nowNs : Int)
    (x : Context × StoreState)
    (h : SlidingWindowLimiter.Allow f s key limit window nowNs = .ok x) :
    SlidingWindowLimiter.Allow noFaults s key limit window nowNs = .ok x := by
  rcases hR : f.onZRemRangeByScore key with _ | e
  · rcases hC : f.onZCount key with _ | e
    · by_cases hall :
        (((((s.zsets key).filter (fun v => 0 ≤ v → nowNs - window < v)).filter
            (fun v => nowNs ≤ v + window ∧ v ≤ 2 * nowNs)).card : Int) < limit)
      · rcases hZ : f.onZAdd key with _ | e
        · rcases hE : f.onExpire key with _ | e
          · simp [SlidingWindowLimiter.Allow, Store.zremRangeByScore, Store.zcount,
              Store.zadd, Store.expire, noFaults, hR, hC, hZ, hE, hall] at h ⊢
            exact h
          · simp [SlidingWindowLimiter.Allow, Store.zremRangeByScore, Store.zcount,
              Store.zadd, Store.expire, hR, hC, hZ, hE, hall] at h
        · simp [SlidingWindowLimiter.Allow, Store.zremRangeByScore, Store.zcount,
            Store.zadd, hR, hC, hZ, hall] at h
      · rcases hE : f.onExpire key with _ | e
        · simp [SlidingWindowLimiter.Allow, Store.zremRangeByScore, Store.zcount,
            Store.zadd, Store.expire, noFaults, hR, hC, hE, hall] at h ⊢
          exact h
        · simp [SlidingWindowLimiter.Allow, Store.zremRangeByScore, Store.zcount,
            Store.zadd, Store.expire, hR, hC, hE, hall] at h
    · simp [SlidingWindowLimiter.Allow, Store.zremRangeByScore, Store.zcount, hR, hC] at h
  · simp [SlidingWindowLimiter.Allow, Store.zremRangeByScore, hR] at h

/-- A successful token-bucket call is fault-independent. -/
lemma tokenBucket_ok_faultfree (f : Faults) (s : StoreState) (key : String)
    (capacity : Int) (rate : ℚ) (now : Int)
    (x : Context × StoreState)
    (h : TokenBucketLimiter.Allow f s key capacity rate now = .ok x) :
    TokenBucketLimiter.Allow noFaults s key capacity rate now = .ok x := by
  rcases hEv : f.onEval key with _ | e
  · simp only [TokenBucketLimiter.Allow, Store.evalTokenBucket, noFaults, hEv] at h ⊢
    exact h
  · simp [TokenBucketLimiter.Allow, Store.evalTokenBucket, hEv] at h

/-- A successful rule evaluation is fault-independent (any algorithm). -/
lemma checkRule_ok_faultfree (f : Faults) (l : Limiter) (rule : Rule)
    (s : StoreState) (nowNs : Int) (path ip user : String)
    (x : Result × StoreState)
    (h : Limiter.checkRule f l rule s nowNs path ip user = .ok x) :
    Limiter.checkRule noFaults l rule s nowNs path ip user = .ok x := by
  by_cases hA1 : rule.Algorithm = "fixed_window"
  · simp only [Limiter.checkRule] at h ⊢
    rw [if_pos hA1] at h ⊢
    split at h
    · exact Except.noConfusion h
    · rename_i ctx s1 heq
      rw [fixedWindow_ok_faultfree f s (buildKey rule path ip user) rule.Limit
        rule.Window nowNs (ctx, s1) heq]
      exact h
  · by_cases hA2 : rule.Algorithm = "sliding_window"
    · simp only [Limiter.checkRule] at h ⊢
      rw [if_neg hA1, if_pos hA2] at h ⊢
      split at h
      · exact Except.noConfusion h
      · rename_i ctx s1 heq
        rw [slidingWindow_ok_faultfree f s (buildKey rule path ip user) rule.Limit
          rule.Window nowNs (ctx, s1) heq]
        exact h
    · by_cases hA3 : rule.Algorithm = "token_bucket"
      · simp only [Limiter.checkRule] at h ⊢
        rw [if_neg hA1, if_neg hA2, if_pos hA3] at h ⊢
        split at h
        · exact Except.noConfusion h
        · rename_i ctx s1 heq
          rw [tokenBucket_ok_faultfree f s (buildKey rule path ip user) rule.Capacity
            rule.Rate (unixOfNanos nowNs) (ctx, s1) heq]
          exact h
      · simp only [Limiter.checkRule] at h
        rw [if_neg hA1, if_neg hA2, if_neg hA3] at h
        exact Except.noConfusion h

/-- A successful `checkAndBan` is fault-independent. -/
lemma checkAndBan_ok_faultfree (f : Faults) (l : Limiter) (s : StoreState)
    (dimension identifier : String) (s2 : StoreState)
    (h : Limiter.checkAndBan f l s dimension identifier = .ok s2) :
    Limiter.checkAndBan noFaults l s dimension identifier = .ok s2 := by
  rcases hI : f.onIncr ("violation:" ++ dimension ++ ":" ++ identifier) with _ | e
  · by_cases h1 :
      s.counters ("violation:" ++ dimension ++ ":" ++ identifier) + 1 = 1
    · rcases hEv : f.onExpire ("violation:" ++ dimension ++ ":" ++ identifier) with _ | e
      · by_cases hth : l.violationThreshold ≤ (1 : Int)
        · rcases hSet : f.onSet ("blacklist:" ++ dimension ++ ":" ++ identifier) with _ | e
          · rcases hEb : f.onExpire ("blacklist:" ++ dimension ++ ":" ++ identifier) with _ | e
            · rcases hD : f.onDel ("violation:" ++ dimension ++ ":" ++ identifier) with _ | e
              · simp [Limiter.checkAndBan, Store.incr, Store.expire, Store.set,
                  Store.del, noFaults, hI, hEv, hSet, hEb, hD, h1, hth] at h ⊢
                exact h
              · simp [Limiter.checkAndBan, Store.incr, Store.expire, Store.set,
                  Store.del, hI, hEv, hSet, hEb, hD, h1, hth] at h
            · simp [Limiter.checkAndBan, Store.incr, Store.expire, Store.set,
                hI, hEv, hSet, hEb, h1, hth] at h
          · simp [Limiter.checkAndBan, Store.incr, Store.expire, Store.set,
              hI, hEv, hSet, h1, hth] at h
        · simp [Limiter.checkAndBan, Store.incr, Store.expire, noFaults,
            hI, hEv, h1, hth] at h ⊢
          exact h
      · simp [Limiter.checkAndBan, Store.incr, Store.expire, hI, hEv, h1] at h
    · by_cases hth : l.violationThreshold ≤
        s.counters ("violation:" ++ dimension ++ ":" ++ identifier) + 1
      · rcases hSet : f.onSet ("blacklist:" ++ dimension ++ ":" ++ identifier) with _ | e
        · rcases hEb : f.onExpire ("blacklist:" ++ dimension ++ ":" ++ identifier) with _ | e
          · rcases hD : f.onDel ("violation:" ++ dimension ++ ":" ++ identifier) with _ | e
            · simp [Limiter.checkAndBan, Store.incr, Store.expire, Store.set,
                Store.del, noFaults, hI, hSet, hEb, hD, h1, hth] at h ⊢
              exact h
            · simp [Limiter.checkAndBan, Store.incr, Store.expire, Store.set,
                Store.del, hI, hSet, hEb, hD, h1, hth] at h
          · simp [Limiter.checkAndBan, Store.incr, Store.expire, Store.set,
              hI, hSet, hEb, h1, hth] at h
        · simp [Limiter.checkAndBan, Store.incr, Store.expire, Store.set,
            hI, hSet, h1, hth] at h
      · simp [Limiter.checkAndBan, Store.incr, Store.expire, noFaults,
          hI, h1, hth] at h ⊢
        exact h
  · simp [Limiter.checkAndBan, Store.incr, hI] at h

/-- A successful `recordViolation` is fault-independent. -/
lemma recordViolation_ok_faultfree (f : Faults) (l : Limiter) (s : StoreState)
    (ip user : String) (s' : StoreState)
    (h : Limiter.recordViolation f l s ip user = .ok s') :
    Limiter.recordViolation noFaults l s ip user = .ok s' := by
  simp only [Limiter.recordViolation] at h ⊢
  by_cases hab : (!l.autoBanEnabled) = true
  · rw [if_pos hab] at h ⊢
    exact h
  · rw [if_neg hab] at h ⊢
    by_cases hipd : ip ≠ "" ∧ l.autoBanDimensions "ip" = true
    · rw [if_pos hipd] at h ⊢
      split at h
      · exact Except.noConfusion h
      · rename_i s1 heq
        rw [checkAndBan_ok_faultfree f l s "ip" ip s1 heq]
        dsimp only
        by_cases hud : user ≠ "" ∧ l.autoBanDimensions "user" = true
        · rw [if_pos hud] at h ⊢
          exact checkAndBan_ok_faultfree f l s1 "user" user s' h
        · rw [if_neg hud] at h ⊢
          exact h
    · rw [if_neg hipd] at h ⊢
      dsimp only at h ⊢
      by_cases hud : user ≠ "" ∧ l.autoBanDimensions "user" = true
      · rw [if_pos hud] at h ⊢
        exact checkAndBan_ok_faultfree f l s "user" user s' h
      · rw [if_neg hud] at h ⊢
        exact h

/-- A successful pass of the rule-list loop is fault-independent. -/
lemma checkRulesLoop_ok_faultfree (f : Faults) (l : Limiter) (nowNs : Int)
    (path method ip user : String) :
    ∀ (rules : List Rule) (s : StoreState) (x : Result × StoreState),
      Limiter.checkRulesLoop f l nowNs path method ip user rules s = .ok x →
      Limiter.checkRulesLoop noFaults l nowNs path method ip user rules s = .ok x := by
  intro rules
  induction rules with
  | nil =>
    intro s x h
    exact h
  | cons rule rest ih =>
    intro s x h
    simp only [Limiter.checkRulesLoop] at h ⊢
    by_cases hm : (!(l.matchPath rule.Path path)) = true
    · rw [if_pos hm] at h ⊢
      exact ih s x h
    · rw [if_neg hm] at h ⊢
      by_cases hmm : rule.Method ≠ "" ∧ rule.Method ≠ method
      · rw [if_pos hmm] at h ⊢
        exact ih s x h
      · rw [if_neg hmm] at h ⊢
        split at h
        · exact Except.noConfusion h
        · rename_i result s1 heq
          rw [checkRule_ok_faultfree f l rule s nowNs path ip user (result, s1) heq]
          dsimp only
          by_cases hres : result.Allowed = true
          · rw [if_pos hres] at h ⊢
            exact ih s1 x h
          · rw [if_neg hres] at h ⊢
            split at h
            · exact Except.noConfusion h
            · rename_i s2 heq2
              rw [recordViolation_ok_faultfree f l s1 ip user s2 heq2]
              exact h

/-- A successful pass of the global-rule stage plus the rule list is
fault-independent. -/
lemma checkGlobalAndRules_ok_faultfree (f : Faults) (l : Limiter) (s : StoreState)
    (nowNs : Int) (path method ip user : String) (x : Result × StoreState)
    (h : Limiter.checkGlobalAndRules f l s nowNs path method ip user = .ok x) :
    Limiter.checkGlobalAndRules noFaults l s nowNs path method ip user = .ok x := by
  rcases hg : l.globalRule with _ | g
  · simp only [Limiter.checkGlobalAndRules, hg] at h ⊢
    exact checkRulesLoop_ok_faultfree f l nowNs path method ip user l.rules s x h
  · simp only [Limiter.checkGlobalAndRules, hg] at h ⊢
    split at h
    · exact Except.noConfusion h
    · rename_i result s1 heq
      rw [checkRule_ok_faultfree f l g s nowNs path ip user (result, s1) heq]
      dsimp only
      by_cases hres : (!result.Allowed) = true
      · rw [if_pos hres] at h ⊢
        split at h
        · exact Except.noConfusion h
        · rename_i s2 heq2
          rw [recordViolation_ok_faultfree f l s1 ip user s2 heq2]
          exact h
      · rw [if_neg hres] at h ⊢
        exact checkRulesLoop_ok_faultfree f l nowNs path method ip user l.rules s1 x h

/-- A successful pass of the IP stage onward is fault-independent. -/
lemma checkIPStage_ok_faultfree (f : Faults) (l : Limiter) (s : StoreState)
    (nowNs : Int) (path method ip user : String) (x : Result × StoreState)
    (h : Limiter.checkIPStage f l s nowNs path method ip user = .ok x) :
    Limiter.checkIPStage noFaults l s nowNs path method ip user = .ok x := by
  simp only [Limiter.checkIPStage] at h ⊢
  by_cases hip0 : ip = ""
  · rw [if_pos hip0] at h ⊢
    exact checkGlobalAndRules_ok_faultfree f l s nowNs path method ip user x h
  · rw [if_neg hip0] at h ⊢
    by_cases hbl : l.blacklistIPs ip = true
    · rw [if_pos hbl] at h ⊢
      exact h
    · rw [if_neg hbl] at h ⊢
      by_cases hdyn : (l.autoBanEnabled && l.autoBanDimensions "ip") = true
      · rw [if_pos hdyn] at h ⊢
        rcases hget : f.onGet ("blacklist:ip:" ++ ip) with _ | e
        · simp only [Store.get, hget, noFaults] at h ⊢
          by_cases hb : 0 < s.counters ("blacklist:ip:" ++ ip)
          · rw [if_pos hb] at h ⊢
            exact h
          · rw [if_neg hb] at h ⊢
            by_cases hwl : l.whitelistIPs ip = true
            · rw [if_pos hwl] at h ⊢
              exact h
            · rw [if_neg hwl] at h ⊢
              exact checkGlobalAndRules_ok_faultfree f l s nowNs path method ip user x h
        · simp [Store.get, hget] at h
      · rw [if_neg hdyn] at h ⊢
        by_cases hwl : l.whitelistIPs ip = true
        · rw [if_pos hwl] at h ⊢
          exact h
        · rw [if_neg hwl] at h ⊢
          exact checkGlobalAndRules_ok_faultfree f l s nowNs path method ip user x h

/-- A successful `Check` is fault-independent: whatever Decision a run
over a faulty store produces, the fault-free run produces the same one —
a store failure is never converted into an allow or a deny. -/
lemma check_ok_faultfree (f : Faults) (l : Limiter) (s : StoreState)
    (nowNs : Int) (path method ip user : String) (x : Result × StoreState)
    (h : Limiter.Check f l s nowNs path method ip user = .ok x) :
    Limiter.Check noFaults l s nowNs path method ip user = .ok x := by
  simp only [Limiter.Check] at h ⊢
  by_cases hen : (!l.enabled) = true
  · rw [if_pos hen] at h ⊢
    exact h
  · rw [if_neg hen] at h ⊢
    by_cases hu : user ≠ ""
    · rw [if_pos hu] at h ⊢
      by_cases hbu : l.blacklistUsers user = true
      · rw [if_pos hbu] at h ⊢
        exact h
      · rw [if_neg hbu] at h ⊢
        by_cases hdyn : (l.autoBanEnabled && l.autoBanDimensions "user") = true
        · rw [if_pos hdyn] at h ⊢
          rcases hget : f.onGet ("blacklist:user:" ++ user) with _ | e
          · simp only [Store.get, hget, noFaults] at h ⊢
            by_cases hb : 0 < s.counters ("blacklist:user:" ++ user)
            · rw [if_pos hb] at h ⊢
              exact h
            · rw [if_neg hb] at h ⊢
              by_cases hwu : l.whitelistUsers user = true
              · rw [if_pos hwu] at h ⊢
                exact h
              · rw [if_neg hwu] at h ⊢
                exact checkIPStage_ok_faultfree f l s nowNs path method ip user x h
          · simp [Store.get, hget] at h
        · rw [if_neg hdyn] at h ⊢
          by_cases hwu : l.whitelistUsers user = true
          · rw [if_pos hwu] at h ⊢
            exact h
          · rw [if_neg hwu] at h ⊢
            exact checkIPStage_ok_faultfree f l s nowNs path method ip user x h
    · rw [if_neg hu] at h ⊢
      exact checkIPStage_ok_faultfree f l s nowNs path method ip user x h

/-- The fault-free sliding-window call always succeeds. -/
lemma slidingWindow_noFaults_total (s : StoreState) (key : String) (limit : Int)
    (window : Duration) (nowNs : Int) :
    ∃ x, SlidingWindowLimiter.Allow noFaults s key limit window nowNs = .ok x := by
  by_cases hall :
      (((((s.zsets key).filter (fun v => ¬(0 ≤ v ∧ v ≤ nowNs - window))).filter
          (fun v => nowNs - window ≤ v ∧ v ≤ 2 * nowNs)).card : Int) < limit)
  · exact ⟨_, by
      simp only [SlidingWindowLimiter.Allow, Store.zremRangeByScore, Store.zcount,
        Store.zadd, Store.expire, noFaults, eq_self_iff_true, if_true]
      rw [decide_eq_true hall]
      rfl⟩
  · exact ⟨_, by
      simp only [SlidingWindowLimiter.Allow, Store.zremRangeByScore, Store.zcount,
        Store.zadd, Store.expire, noFaults, eq_self_iff_true, if_true]
      rw [decide_eq_false hall]
      rfl⟩

/-- The fault-free token-bucket call always succeeds. -/
lemma tokenBucket_noFaults_total (s : StoreState) (key : String) (capacity : Int)
    (rate : ℚ) (now : Int) :
    ∃ x, TokenBucketLimiter.Allow noFaults s key capacity rate now = .ok x :=
  ⟨_, rfl⟩

/-- The fault-free evaluation of a rule with a known algorithm always
succeeds. -/
lemma checkRule_noFaults_total (l : Limiter) (rule : Rule) (s : StoreState)
    (nowNs : Int) (path ip user : String) (hk : knownAlgorithm rule) :
    ∃ x, Limiter.checkRule noFaults l rule s nowNs path ip user = .ok x := by
  rcases hk with hA | hA | hA
  · obtain ⟨ctx, s', heq, -, -, -⟩ :=
      fixedWindow_step s (buildKey rule path ip user) rule.Limit rule.Window nowNs
    exact ⟨_, by
      simp only [Limiter.checkRule]
      rw [if_pos hA, heq]⟩
  · obtain ⟨⟨ctx, s'⟩, heq⟩ :=
      slidingWindow_noFaults_total s (buildKey rule path ip user) rule.Limit rule.Window nowNs
    have hne1 : ¬(rule.Algorithm = "fixed_window") := by simp [hA]
    exact ⟨_, by
      simp only [Limiter.checkRule]
      rw [if_neg hne1, if_pos hA, heq]⟩
  · obtain ⟨⟨ctx, s'⟩, heq⟩ :=
      tokenBucket_noFaults_total s (buildKey rule path ip user) rule.Capacity rule.Rate
        (unixOfNanos nowNs)
    have hne1 : ¬(rule.Algorithm = "fixed_window") := by simp [hA]
    have hne2 : ¬(rule.Algorithm = "sliding_window") := by simp [hA]
    exact ⟨_, by
      simp only [Limiter.checkRule]
      rw [if_neg hne1, if_neg hne2, if_pos hA, heq]⟩

/-- The fault-free `checkAndBan` always succeeds. -/
lemma checkAndBan_noFaults_total (l : Limiter) (s : StoreState)
    (dimension identifier : String) :
    ∃ s2, Limiter.checkAndBan noFaults l s dimension identifier = .ok s2 := by
  by_cases h1 : s.counters ("violation:" ++ dimension ++ ":" ++ identifier) + 1 = 1
  · by_cases hth : l.violationThreshold ≤
        s.counters ("violation:" ++ dimension ++ ":" ++ identifier) + 1
    · exact ⟨_, by
        simp only [Limiter.checkAndBan, Store.incr, Store.expire, Store.set,
          Store.del, noFaults]
        rw [if_pos h1]
        dsimp only
        rw [if_pos hth]⟩
    · exact ⟨_, by
        simp only [Limiter.checkAndBan, Store.incr, Store.expire, Store.set,
          Store.del, noFaults]
        rw [if_pos h1]
        dsimp only
        rw [if_neg hth]⟩
  · by_cases hth : l.violationThreshold ≤
        s.counters ("violation:" ++ dimension ++ ":" ++ identifier) + 1
    · exact ⟨_, by
        simp only [Limiter.checkAndBan, Store.incr, Store.expire, Store.set,
          Store.del, noFaults]
        rw [if_neg h1]
        dsimp only
        rw [if_pos hth]⟩
    · exact ⟨_, by
        simp only [Limiter.checkAndBan, Store.incr, Store.expire, Store.set,
          Store.del, noFaults]
        rw [if_neg h1]
        dsimp only
        rw [if_neg hth]⟩

/-- The fault-free `recordViolation` always succeeds. -/
lemma recordViolation_noFaults_total (l : Limiter) (s : StoreState)
    (ip user : String) :
    ∃ s', Limiter.recordViolation noFaults l s ip user = .ok s' := by
  by_cases hab : (!l.autoBanEnabled) = true
  · refine ⟨s, ?_⟩
    simp only [Limiter.recordViolation]
    rw [if_pos hab]
  · by_cases hipd : ip ≠ "" ∧ l.autoBanDimensions "ip" = true
    · obtain ⟨s1, heq1⟩ := checkAndBan_noFaults_total l s "ip" ip
      by_cases hud : user ≠ "" ∧ l.autoBanDimensions "user" = true
      · obtain ⟨s2, heq2⟩ := checkAndBan_noFaults_total l s1 "user" user
        refine ⟨s2, ?_⟩
        simp only [Limiter.recordViolation]
        rw [if_neg hab, if_pos hipd, heq1]
        dsimp only
        rw [if_pos hud]
        exact heq2
      · refine ⟨s1, ?_⟩
        simp only [Limiter.recordViolation]
        rw [if_neg hab, if_pos hipd, heq1]
        dsimp only
        rw [if_neg hud]
    · by_cases hud : user ≠ "" ∧ l.autoBanDimensions "user" = true
      · obtain ⟨s2, heq2⟩ := checkAndBan_noFaults_total l s "user" user
        refine ⟨s2, ?_⟩
        simp only [Limiter.recordViolation]
        rw [if_neg hab, if_neg hipd]
        dsimp only
        rw [if_pos hud]
        exact heq2
      · refine ⟨s, ?_⟩
        simp only [Limiter.recordViolation]
        rw [if_neg hab, if_neg hipd]
        dsimp only
        rw [if_neg hud]

/-- The fault-free rule-list loop always succeeds when every rule has a
known algorithm. -/
lemma checkRulesLoop_noFaults_total (l : Limiter) (nowNs : Int)
    (path method ip user : String) :
    ∀ (rules : List Rule), (∀ r ∈ rules, knownAlgorithm r) →
      ∀ s : StoreState, ∃ x,
        Limiter.checkRulesLoop noFaults l nowNs path method ip user rules s = .ok x := by
  intro rules
  induction rules with
  | nil =>
    intro _ s
    exact ⟨_, rfl⟩
  | cons rule rest ih =>
    intro hv s
    have hvr : knownAlgorithm rule := hv rule (List.mem_cons_self rule rest)
    have hvrest : ∀ r ∈ rest, knownAlgorithm r :=
      fun r hr => hv r (List.mem_cons_of_mem rule hr)
    by_cases hm : (!(l.matchPath rule.Path path)) = true
    · obtain ⟨x, hx⟩ := ih hvrest s
      refine ⟨x, ?_⟩
      simp only [Limiter.checkRulesLoop]
      rw [if_pos hm]
      exact hx
    · by_cases hmm : rule.Method ≠ "" ∧ rule.Method ≠ method
      · obtain ⟨x, hx⟩ := ih hvrest s
        refine ⟨x, ?_⟩
        simp only [Limiter.checkRulesLoop]
        rw [if_neg hm, if_pos hmm]
        exact hx
      · obtain ⟨⟨result, s1⟩, heq⟩ :=
          checkRule_noFaults_total l rule s nowNs path ip user hvr
        by_cases hres : result.Allowed = true
        · obtain ⟨x, hx⟩ := ih hvrest s1
          refine ⟨x, ?_⟩
          simp only [Limiter.checkRulesLoop]
          rw [if_neg hm, if_neg hmm, heq]
          dsimp only
          rw [if_pos hres]
          exact hx
        · obtain ⟨s2, heq2⟩ := recordViolation_noFaults_total l s1 ip user
          refine ⟨(result, s2), ?_⟩
          simp only [Limiter.checkRulesLoop]
          rw [if_neg hm, if_neg hmm, heq]
          dsimp only
          rw [if_neg hres, heq2]

/-- The fault-free global-rule stage plus rule list always succeeds for
a validated engine. -/
lemma checkGlobalAndRules_noFaults_total (l : Limiter) (s : StoreState)
    (nowNs : Int) (path method ip user : String) (hv : validRules l) :
    ∃ x, Limiter.checkGlobalAndRules noFaults l s nowNs path method ip user = .ok x := by
  rcases hg : l.globalRule with _ | g
  · obtain ⟨x, hx⟩ := checkRulesLoop_noFaults_total l nowNs path method ip user l.rules hv.2 s
    refine ⟨x, ?_⟩
    simp only [Limiter.checkGlobalAndRules, hg]
    exact hx
  · obtain ⟨⟨result, s1⟩, heq⟩ :=
      checkRule_noFaults_total l g s nowNs path ip user (hv.1 g hg)
    by_cases hres : (!result.Allowed) = true
    · obtain ⟨s2, heq2⟩ := recordViolation_noFaults_total l s1 ip user
      refine ⟨(result, s2), ?_⟩
      simp only [Limiter.checkGlobalAndRules, hg]
      rw [heq]
      dsimp only
      rw [if_pos hres, heq2]
    · obtain ⟨x, hx⟩ := checkRulesLoop_noFaults_total l nowNs path method ip user l.rules hv.2 s1
      refine ⟨x, ?_⟩
      simp only [Limiter.checkGlobalAndRules, hg]
      rw [heq]
      dsimp only
      rw [if_neg hres]
      exact hx

/-- The fault-free IP stage onward always succeeds for a validated
engine. -/
lemma checkIPStage_noFaults_total (l : Limiter) (s : StoreState) (nowNs : Int)
    (path method ip user : String) (hv : validRules l) :
    ∃ x, Limiter.checkIPStage noFaults l s nowNs path method ip user = .ok x := by
  by_cases hip0 : ip = ""
  · obtain ⟨x, hx⟩ := checkGlobalAndRules_noFaults_total l s nowNs path method ip user hv
    refine ⟨x, ?_⟩
    simp only [Limiter.checkIPStage]
    rw [if_pos hip0]
    exact hx
  · by_cases hbl : l.blacklistIPs ip = true
    · exact ⟨_, by
        simp only [Limiter.checkIPStage]
        rw [if_neg hip0, if_pos hbl]⟩
    · by_cases hdyn : (l.autoBanEnabled && l.autoBanDimensions "ip") = true
      · by_cases hb : 0 < s.counters ("blacklist:ip:" ++ ip)
        · exact ⟨_, by
            simp only [Limiter.checkIPStage, Store.get, noFaults]
            rw [if_neg hip0, if_neg hbl, if_pos hdyn, if_pos hb]⟩
        · by_cases hwl : l.whitelistIPs ip = true
          · exact ⟨_, by
              simp only [Limiter.checkIPStage, Store.get, noFaults]
              rw [if_neg hip0, if_neg hbl, if_pos hdyn, if_neg hb, if_pos hwl]⟩
          · obtain ⟨x, hx⟩ := checkGlobalAndRules_noFaults_total l s nowNs path method ip user hv
            refine ⟨x, ?_⟩
            simp only [Limiter.checkIPStage, Store.get, noFaults]
            rw [if_neg hip0, if_neg hbl, if_pos hdyn, if_neg hb, if_neg hwl]
            exact hx
      · by_cases hwl : l.whitelistIPs ip = true
        · exact ⟨_, by
            simp only [Limiter.checkIPStage]
            rw [if_neg hip0, if_neg hbl, if_neg hdyn, if_pos hwl]⟩
        · obtain ⟨x, hx⟩ := checkGlobalAndRules_noFaults_total l s nowNs path method ip user hv
          refine ⟨x, ?_⟩
          simp only [Limiter.checkIPStage]
          rw [if_neg hip0, if_neg hbl, if_neg hdyn, if_neg hwl]
          exact hx

/-- The fault-free `Check` always returns a Decision for a validated
engine: an error from `Check` can only originate in a store failure. -/
lemma check_noFaults_total (l : Limiter) (s : StoreState) (nowNs : Int)
    (path method ip user : String) (hv : validRules l) :
    ∃ x, Limiter.Check noFaults l s nowNs path method ip user = .ok x := by
  by_cases hen : (!l.enabled) = true
  · exact ⟨_, by
      simp only [Limiter.Check]
      rw [if_pos hen]⟩
  · by_cases hu : user ≠ ""
    · by_cases hbu : l.blacklistUsers user = true
      · exact ⟨_, by
          simp only [Limiter.Check]
          rw [if_neg hen, if_pos hu, if_pos hbu]⟩
      · by_cases hdyn : (l.autoBanEnabled && l.autoBanDimensions "user") = true
        · by_cases hb : 0 < s.counters ("blacklist:user:" ++ user)
          · exact ⟨_, by
              simp only [Limiter.Check, Store.get, noFaults]
              rw [if_neg hen, if_pos hu, if_neg hbu, if_pos hdyn, if_pos hb]⟩
          · by_cases hwu : l.whitelistUsers user = true
            · exact ⟨_, by
                simp only [Limiter.Check, Store.get, noFaults]
                rw [if_neg hen, if_pos hu, if_neg hbu, if_pos hdyn, if_neg hb,
                  if_pos hwu]⟩
            · obtain ⟨x, hx⟩ := checkIPStage_noFaults_total l s nowNs path method ip user hv
              refine ⟨x, ?_⟩
              simp only [Limiter.Check, Store.get, noFaults]
              rw [if_neg hen, if_pos hu, if_neg hbu, if_pos hdyn, if_neg hb, if_neg hwu]
              exact hx
        · by_cases hwu : l.whitelistUsers user = true
          · exact ⟨_, by
              simp only [Limiter.Check]
              rw [if_neg hen, if_pos hu, if_neg hbu, if_neg hdyn, if_pos hwu]⟩
          · obtain ⟨x, hx⟩ := checkIPStage_noFaults_total l s nowNs path method ip user hv
            refine ⟨x, ?_⟩
            simp only [Limiter.Check]
            rw [if_neg hen, if_pos hu, if_neg hbu, if_neg hdyn, if_neg hwu]
            exact hx
    · obtain ⟨x, hx⟩ := checkIPStage_noFaults_total l s nowNs path method ip user hv
      refine ⟨x, ?_⟩
      simp only [Limiter.Check]
      rw [if_neg hen, if_neg hu]
      exact hx

/-- When the user stage of `Check` falls through (empty user, or: not
statically blacklisted, the dynamic lookup — when the `user` auto-ban
dimension is enabled — succeeds and finds no ban, and not statically
whitelisted), `Check` continues with the IP stage. -/
lemma check_userFallThrough (f : Faults) (l : Limiter) (s : StoreState)
    (nowNs : Int) (path method ip user : String) (hen : l.enabled = true)
    (hu : user = ""
      ∨ (l.blacklistUsers user = false
          ∧ ((l.autoBanEnabled && l.autoBanDimensions "user") = true →
              f.onGet ("blacklist:user:" ++ user) = none
                ∧ s.counters ("blacklist:user:" ++ user) ≤ 0)
          ∧ l.whitelistUsers user = false)) :
    Limiter.Check f l s nowNs path method ip user
      = Limiter.checkIPStage f l s nowNs path method ip user := by
  by_cases hu0 : user ≠ ""
  · rcases hu with h0 | ⟨hbu, hdg, hwu⟩
    · exact absurd h0 hu0
    · by_cases hd : (l.autoBanEnabled && l.autoBanDimensions "user") = true
      · obtain ⟨hg, hc⟩ := hdg hd
        have hnb : ¬(0 < s.counters ("blacklist:user:" ++ user)) := by omega
        simp [Limiter.Check, hen, hu0, hbu, hd, Store.get, hg, hnb, hwu]
      · simp [Limiter.Check, hen, hu0, hbu, hd, hwu]
  · have hu1 : user = "" := not_not.mp hu0
    simp [Limiter.Check, hen, hu1]

/-- When the IP stage falls through (empty ip, or: not statically
blacklisted, the dynamic lookup — when the `ip` auto-ban dimension is
enabled — succeeds and finds no ban, and not statically whitelisted),
it continues with the global rule and the rule list. -/
lemma checkIPStage_fallThrough (f : Faults) (l : Limiter) (s : StoreState)
    (nowNs : Int) (path method ip user : String)
    (hip : ip = ""
      ∨ (l.blacklistIPs ip = false
          ∧ ((l.autoBanEnabled && l.autoBanDimensions "ip") = true →
              f.onGet ("blacklist:ip:" ++ ip) = none
                ∧ s.counters ("blacklist:ip:" ++ ip) ≤ 0)
          ∧ l.whitelistIPs ip = false)) :
    Limiter.checkIPStage f l s nowNs path method ip user
      = Limiter.checkGlobalAndRules f l s nowNs path method ip user := by
  by_cases hip0 : ip = ""
  · simp [Limiter.checkIPStage, hip0]
  · rcases hip with h0 | ⟨hbl, hdg, hwl⟩
    · exact absurd h0 hip0
    · by_cases hd : (l.autoBanEnabled && l.autoBanDimensions "ip") = true
      · obtain ⟨hg, hc⟩ := hdg hd
        have hnb : ¬(0 < s.counters ("blacklist:ip:" ++ ip)) := by omega
        simp [Limiter.checkIPStage, hip0, hbl, hd, Store.get, hg, hnb, hwl]
      · simp [Limiter.checkIPStage, hip0, hbl, hd, hwl]

/-- C9 (confirmed).  Error propagation, universally over every store
operation executed in the three phases.  (1) A failing dynamic
user-blacklist `Get` surfaces from `Check` (wrapped); (2) the fault-free
engine always returns a Decision when every configured algorithm is
known, and (3) a run under an arbitrary fault assignment that returns a
Decision returns exactly the fault-free Decision — so a store failure is
never converted into an allow or a deny, it can only surface as an
error; (4) a failing dynamic IP-blacklist `Get` surfaces from `Check`
(wrapped); (5)-(7) each executed fixed-window operation (`Incr`,
first-increment `Expire`, `TTL`) surfaces its failure from `Allow`;
(8)-(11) likewise the sliding-window `ZRemRangeByScore`, `ZCount`,
admission `ZAdd`, and `Expire`; (12) the token-bucket `Eval`; (13)-(17)
the violation-counter `Incr`, first-increment `Expire`, blacklist-flag
`Set`, ban `Expire`, and counter `Del` inside `checkAndBan`; (18)-(19)
`recordViolation` propagates a failure of either dimension's
`checkAndBan`; (20) `checkRule` propagates the dispatched algorithm's
failure for each of the three algorithms; (21)-(24) the rule loop skips
non-matching rules unchanged, surfaces a matching rule's failure,
surfaces a post-deny recording failure (wrapped), and continues past
allows with the updated state; (25)-(28) the global-rule stage behaves
the same; (29)-(30) the IP and user stages fall through to the later
phases, so the conjuncts compose to cover every configuration and every
request. -/
theorem store_error_propagation :
    (∀ (f : Faults) (l : Limiter) (s : StoreState) (nowNs : Int)
        (path method ip user e : String),
        l.enabled = true → user ≠ "" → l.blacklistUsers user = false →
        (l.autoBanEnabled && l.autoBanDimensions "user") = true →
        f.onGet ("blacklist:user:" ++ user) = some e →
        Limiter.Check f l s nowNs path method ip user
          = .error ("检查用户黑名单失败: " ++ e))
    ∧ (∀ (l : Limiter) (s : StoreState) (nowNs : Int)
        (path method ip user : String),
        validRules l →
        ∃ x, Limiter.Check noFaults l s nowNs path method ip user = .ok x)
    ∧ (∀ (f : Faults) (l : Limiter) (s : StoreState) (nowNs : Int)
        (path method ip user : String) (x : Result × StoreState),
        Limiter.Check f l s nowNs path method ip user = .ok x →
        Limiter.Check noFaults l s nowNs path method ip user = .ok x)
    ∧ (∀ (f : Faults) (l : Limiter) (s : StoreState) (nowNs : Int)
        (path method ip user e : String),
        l.enabled = true →
        (user = ""
          ∨ (l.blacklistUsers user = false
              ∧ ((l.autoBanEnabled && l.autoBanDimensions "user") = true →
                  f.onGet ("blacklist:user:" ++ user) = none
                    ∧ s.counters ("blacklist:user:" ++ user) ≤ 0)
              ∧ l.whitelistUsers user = false)) →
        ip ≠ "" → l.blacklistIPs ip = false →
        (l.autoBanEnabled && l.autoBanDimensions "ip") = true →
        f.onGet ("blacklist:ip:" ++ ip) = some e →
        Limiter.Check f l s nowNs path method ip user
          = .error ("检查IP黑名单失败: " ++ e))
    ∧ (∀ (f : Faults) (s : StoreState) (key : String) (limit : Int)
        (window : Duration) (nowNs : Int) (e : String),
        f.onIncr key = some e →
        FixedWindowLimiter.Allow f s key limit window nowNs
          = .error ("递增计数失败: " ++ e))
    ∧ (∀ (f : Faults) (s : StoreState) (key : String) (limit : Int)
        (window : Duration) (nowNs : Int) (e : String),
        f.onIncr key = none → s.counters key + 1 = 1 →
        f.onExpire key = some e →
        FixedWindowLimiter.Allow f s key limit window nowNs
          = .error ("设置过期时间失败: " ++ e))
    ∧ (∀ (f : Faults) (s : StoreState) (key : String) (limit : Int)
        (window : Duration) (nowNs : Int) (e : String),
        f.onIncr key = none →
        (s.counters key + 1 = 1 → f.onExpire key = none) →
        f.onTTL key = some e →
        FixedWindowLimiter.Allow f s key limit window nowNs
          = .error ("获取TTL失败: " ++ e))
    ∧ (∀ (f : Faults) (s : StoreState) (key : String) (limit : Int)
        (window : Duration) (nowNs : Int) (e : String),
        f.onZRemRangeByScore key = some e →
        SlidingWindowLimiter.Allow f s key limit window nowNs
          = .error ("删除过期记录失败: " ++ e))
    ∧ (∀ (f : Faults) (s : StoreState) (key : String) (limit : Int)
        (window : Duration) (nowNs : Int) (e : String),
        f.onZRemRangeByScore key = none → f.onZCount key = some e →
        SlidingWindowLimiter.Allow f s key limit window nowNs
          = .error ("统计请求数失败: " ++ e))
    ∧ (∀ (f : Faults) (s : StoreState) (key : String) (limit : Int)
        (window : Duration) (nowNs : Int) (e : String),
        f.onZRemRangeByScore key = none → f.onZCount key = none →
        ((((s.zsets key).filter (fun v => ¬(0 ≤ v ∧ v ≤ nowNs - window))).filter
            (fun v => nowNs - window ≤ v ∧ v ≤ 2 * nowNs)).card : Int) < limit →
        f.onZAdd key = some e →
        SlidingWindowLimiter.Allow f s key limit window nowNs
          = .error ("添加请求记录失败: " ++ e))
    ∧ (∀ (f : Faults) (s : StoreState) (key : String) (limit : Int)
        (window : Duration) (nowNs : Int) (e : String),
        f.onZRemRangeByScore key = none → f.onZCount key = none →
        (((((s.zsets key).filter (fun v => ¬(0 ≤ v ∧ v ≤ nowNs - window))).filter
            (fun v => nowNs - window ≤ v ∧ v ≤ 2 * nowNs)).card : Int) < limit →
          f.onZAdd key = none) →
        f.onExpire key = some e →
        SlidingWindowLimiter.Allow f s key limit window nowNs
          = .error ("设置过期时间失败: " ++ e))
    ∧ (∀ (f : Faults) (s : StoreState) (key : String) (capacity : Int)
        (rate : ℚ) (now : Int) (e : String),
        f.onEval key = some e →
        TokenBucketLimiter.Allow f s key capacity rate now
          = .error ("执行Lua脚本失败: " ++ e))
    ∧ (∀ (f : Faults) (l : Limiter) (s : StoreState) (dimension identifier e : String),
        f.onIncr ("violation:" ++ dimension ++ ":" ++ identifier) = some e →
        Limiter.checkAndBan f l s dimension identifier = .error e)
    ∧ (∀ (f : Faults) (l : Limiter) (s : StoreState) (dimension identifier e : String),
        f.onIncr ("violation:" ++ dimension ++ ":" ++ identifier) = none →
        s.counters ("violation:" ++ dimension ++ ":" ++ identifier) + 1 = 1 →
        f.onExpire ("violation:" ++ dimension ++ ":" ++ identifier) = some e →
        Limiter.checkAndBan f l s dimension identifier = .error e)
    ∧ (∀ (f : Faults) (l : Limiter) (s : StoreState) (dimension identifier e : String),
        f.onIncr ("violation:" ++ dimension ++ ":" ++ identifier) = none →
        (s.counters ("violation:" ++ dimension ++ ":" ++ identifier) + 1 = 1 →
          f.onExpire ("violation:" ++ dimension ++ ":" ++ identifier) = none) →
        l.violationThreshold ≤
          s.counters ("violation:" ++ dimension ++ ":" ++ identifier) + 1 →
        f.onSet ("blacklist:" ++ dimension ++ ":" ++ identifier) = some e →
        Limiter.checkAndBan f l s dimension identifier = .error e)
    ∧ (∀ (f : Faults) (l : Limiter) (s : StoreState) (dimension identifier e : String),
        f.onIncr ("violation:" ++ dimension ++ ":" ++ identifier) = none →
        (s.counters ("violation:" ++ dimension ++ ":" ++ identifier) + 1 = 1 →
          f.onExpire ("violation:" ++ dimension ++ ":" ++ identifier) = none) →
        l.violationThreshold ≤
          s.counters ("violation:" ++ dimension ++ ":" ++ identifier) + 1 →
        f.onSet ("blacklist:" ++ dimension ++ ":" ++ identifier) = none →
        f.onExpire ("blacklist:" ++ dimension ++ ":" ++ identifier) = some e →
        Limiter.checkAndBan f l s dimension identifier = .error e)
    ∧ (∀ (f : Faults) (l : Limiter) (s : StoreState) (dimension identifier e : String),
        f.onIncr ("violation:" ++ dimension ++ ":" ++ identifier) = none →
        (s.counters ("violation:" ++ dimension ++ ":" ++ identifier) + 1 = 1 →
          f.onExpire ("violation:" ++ dimension ++ ":" ++ identifier) = none) →
        l.violationThreshold ≤
          s.counters ("violation:" ++ dimension ++ ":" ++ identifier) + 1 →
        f.onSet ("blacklist:" ++ dimension ++ ":" ++ identifier) = none →
        f.onExpire ("blacklist:" ++ dimension ++ ":" ++ identifier) = none →
        f.onDel ("violation:" ++ dimension ++ ":" ++ identifier) = some e →
        Limiter.checkAndBan f l s dimension identifier = .error e)
    ∧ (∀ (f : Faults) (l : Limiter) (s : StoreState) (ip user e : String),
        l.autoBanEnabled = true → ip ≠ "" → l.autoBanDimensions "ip" = true →
        Limiter.checkAndBan f l s "ip" ip = .error e →
        Limiter.recordViolation f l s ip user = .error e)
    ∧ (∀ (f : Faults) (l : Limiter) (s s1 : StoreState) (ip user e : String),
        l.autoBanEnabled = true →
        (if ip ≠ "" ∧ l.autoBanDimensions "ip" = true
          then Limiter.checkAndBan f l s "ip" ip else .ok s) = .ok s1 →
        user ≠ "" → l.autoBanDimensions "user" = true →
        Limiter.checkAndBan f l s1 "user" user = .error e →
        Limiter.recordViolation f l s ip user = .error e)
    ∧ (∀ (f : Faults) (l : Limiter) (rule : Rule) (s : StoreState) (nowNs : Int)
        (path ip user e : String),
        ((rule.Algorithm = "fixed_window"
            ∧ FixedWindowLimiter.Allow f s (buildKey rule path ip user)
                rule.Limit rule.Window nowNs = .error e)
          ∨ (rule.Algorithm = "sliding_window"
              ∧ SlidingWindowLimiter.Allow f s (buildKey rule path ip user)
                  rule.Limit rule.Window nowNs = .error e)
          ∨ (rule.Algorithm = "token_bucket"
              ∧ TokenBucketLimiter.Allow f s (buildKey rule path ip user)
                  rule.Capacity rule.Rate (unixOfNanos nowNs) = .error e)) →
        Limiter.checkRule f l rule s nowNs path ip user = .error e)
    ∧ (∀ (f : Faults) (l : Limiter) (nowNs : Int) (path method ip user : String)
        (rule : Rule) (rest : List Rule) (s : StoreState),
        (l.matchPath rule.Path path = false
          ∨ (rule.Method ≠ "" ∧ rule.Method ≠ method)) →
        Limiter.checkRulesLoop f l nowNs path method ip user (rule :: rest) s
          = Limiter.checkRulesLoop f l nowNs path method ip user rest s)
    ∧ (∀ (f : Faults) (l : Limiter) (nowNs : Int) (path method ip user e : String)
        (rule : Rule) (rest : List Rule) (s : StoreState),
        l.matchPath rule.Path path = true →
        ¬(rule.Method ≠ "" ∧ rule.Method ≠ method) →
        Limiter.checkRule f l rule s nowNs path ip user = .error e →
        Limiter.checkRulesLoop f l nowNs path method ip user (rule :: rest) s
          = .error e)
    ∧ (∀ (f : Faults) (l : Limiter) (nowNs : Int) (path method ip user e : String)
        (rule : Rule) (rest : List Rule) (s s1 : StoreState) (result : Result),
        l.matchPath rule.Path path = true →
        ¬(rule.Method ≠ "" ∧ rule.Method ≠ method) →
        Limiter.checkRule f l rule s nowNs path ip user = .ok (result, s1) →
        result.Allowed = false →
        Limiter.recordViolation f l s1 ip user = .error e →
        Limiter.checkRulesLoop f l nowNs path method ip user (rule :: rest) s
          = .error ("记录违规失败: " ++ e))
    ∧ (∀ (f : Faults) (l : Limiter) (nowNs : Int) (path method ip user : String)
        (rule : Rule) (rest : List Rule) (s s1 : StoreState) (result : Result),
        l.matchPath rule.Path path = true →
        ¬(rule.Method ≠ "" ∧ rule.Method ≠ method) →
        Limiter.checkRule f l rule s nowNs path ip user = .ok (result, s1) →
        result.Allowed = true →
        Limiter.checkRulesLoop f l nowNs path method ip user (rule :: rest) s
          = Limiter.checkRulesLoop f l nowNs path method ip user rest s1)
    ∧ (∀ (f : Faults) (l : Limiter) (s : StoreState) (nowNs : Int)
        (path method ip user : String),
        l.globalRule = none →
        Limiter.checkGlobalAndRules f l s nowNs path method ip user
          = Limiter.checkRulesLoop f l nowNs path method ip user l.rules s)
    ∧ (∀ (f : Faults) (l : Limiter) (g : Rule) (s : StoreState) (nowNs : Int)
        (path method ip user e : String),
        l.globalRule = some g →
        Limiter.checkRule f l g s nowNs path ip user = .error e →
        Limiter.checkGlobalAndRules f l s nowNs path method ip user = .error e)
    ∧ (∀ (f : Faults) (l : Limiter) (g : Rule) (s s1 : StoreState) (nowNs : Int)
        (path method ip user e : String) (result : Result),
        l.globalRule = some g →
        Limiter.checkRule f l g s nowNs path ip user = .ok (result, s1) →
        result.Allowed = false →
        Limiter.recordViolation f l s1 ip user = .error e →
        Limiter.checkGlobalAndRules f l s nowNs path method ip user
          = .error ("记录违规失败: " ++ e))
    ∧ (∀ (f : Faults) (l : Limiter) (g : Rule) (s s1 : StoreState) (nowNs : Int)
        (path method ip user : String) (result : Result),
        l.globalRule = some g →
        Limiter.checkRule f l g s nowNs path ip user = .ok (result, s1) →
        result.Allowed = true →
        Limiter.checkGlobalAndRules f l s nowNs path method ip user
          = Limiter.checkRulesLoop f l nowNs path method ip user l.rules s1)
    ∧ (∀ (f : Faults) (l : Limiter) (s : StoreState) (nowNs : Int)
        (path method ip user : String),
        (ip = ""
          ∨ (l.blacklistIPs ip = false
              ∧ ((l.autoBanEnabled && l.autoBanDimensions "ip") = true →
                  f.onGet ("blacklist:ip:" ++ ip) = none
                    ∧ s.counters ("blacklist:ip:" ++ ip) ≤ 0)
              ∧ l.whitelistIPs ip = false)) →
        Limiter.checkIPStage f l s nowNs path method ip user
          = Limiter.checkGlobalAndRules f l s nowNs path method ip user)
    ∧ (∀ (f : Faults) (l : Limiter) (s : StoreState) (nowNs : Int)
        (path method ip user : String),
        l.enabled = true →
        (user = ""
          ∨ (l.blacklistUsers user = false
              ∧ ((l.autoBanEnabled && l.autoBanDimensions "user") = true →
                  f.onGet ("blacklist:user:" ++ user) = none
                    ∧ s.counters ("blacklist:user:" ++ user) ≤ 0)
              ∧ l.whitelistUsers user = false)) →
        Limiter.Check f l s nowNs path method ip user
          = Limiter.checkIPStage f l s nowNs path method ip user) := by
  refine ⟨?_, ?_, ?_, ?_, ?_, ?_, ?_, ?_, ?_, ?_, ?_, ?_, ?_, ?_, ?_, ?_, ?_,
    ?_, ?_, ?_, ?_, ?_, ?_, ?_, ?_, ?_, ?_, ?_, ?_, ?_⟩
  · intro f l s nowNs path method ip user e henabled hu hblu hab hget
    simp [Limiter.Check, henabled, hu, hblu, hab, Store.get, hget]
  · intro l s nowNs path method ip user hv
    exact check_noFaults_total l s nowNs path method ip user hv
  · intro f l s nowNs path method ip user x h
    exact check_ok_faultfree f l s nowNs path method ip user x h
  · intro f l s nowNs path method ip user e hen huft hip hbl hdyn hget
    rw [check_userFallThrough f l s nowNs path method ip user hen huft]
    simp [Limiter.checkIPStage, hip, hbl, hdyn, Store.get, hget]
  · intro f s key limit window nowNs e hI
    simp [FixedWindowLimiter.Allow, Store.incr, hI]
  · intro f s key limit window nowNs e hI h1 hE
    simp [FixedWindowLimiter.Allow, Store.incr, Store.expire, hI, hE, h1]
  · intro f s key limit window nowNs e hI hIE hT
    by_cases h1 : s.counters key + 1 = 1
    · have hE := hIE h1
      simp [FixedWindowLimiter.Allow, Store.incr, Store.expire, Store.ttl,
        hI, hE, hT, h1]
    · simp [FixedWindowLimiter.Allow, Store.incr, Store.ttl, hI, hT, h1]
  · intro f s key limit window nowNs e hZR
    simp [SlidingWindowLimiter.Allow, Store.zremRangeByScore, hZR]
  · intro f s key limit window nowNs e hZR hZC
    simp [SlidingWindowLimiter.Allow, Store.zremRangeByScore, Store.zcount,
      hZR, hZC]
  · intro f s key limit window nowNs e hZR hZC hall hZA
    simp only [SlidingWindowLimiter.Allow, Store.zremRangeByScore, Store.zcount,
      Store.zadd, hZR, hZC, hZA, eq_self_iff_true, if_true]
    rw [decide_eq_true hall]
    rfl
  · intro f s key limit window nowNs e hZR hZC hZAg hE
    by_cases hall :
        ((((s.zsets key).filter (fun v => ¬(0 ≤ v ∧ v ≤ nowNs - window))).filter
            (fun v => nowNs - window ≤ v ∧ v ≤ 2 * nowNs)).card : Int) < limit
    · have hZA := hZAg hall
      simp only [SlidingWindowLimiter.Allow, Store.zremRangeByScore, Store.zcount,
        Store.zadd, Store.expire, hZR, hZC, hZA, hE, eq_self_iff_true, if_true]
      rw [decide_eq_true hall]
      rfl
    · simp only [SlidingWindowLimiter.Allow, Store.zremRangeByScore, Store.zcount,
        Store.zadd, Store.expire, hZR, hZC, hE, eq_self_iff_true, if_true]
      rw [decide_eq_false hall]
      rfl
  · intro f s key capacity rate now e hEv
    simp [TokenBucketLimiter.Allow, Store.evalTokenBucket, hEv]
  · intro f l s dimension identifier e hI
    simp [Limiter.checkAndBan, Store.incr, hI]
  · intro f l s dimension identifier e hI h1 hE
    simp [Limiter.checkAndBan, Store.incr, Store.expire, hI, hE, h1]
  · intro f l s dimension identifier e hI hIE hth hS
    by_cases h1 : s.counters ("violation:" ++ dimension ++ ":" ++ identifier) + 1 = 1
    · have hE := hIE h1
      have hth1 : l.violationThreshold ≤ 1 := h1 ▸ hth
      simp [Limiter.checkAndBan, Store.incr, Store.expire, Store.set,
        hI, hE, hth1, hS, h1]
    · simp [Limiter.checkAndBan, Store.incr, Store.set, hI, hth, hS, h1]
  · intro f l s dimension identifier e hI hIE hth hS hE2
    by_cases h1 : s.counters ("violation:" ++ dimension ++ ":" ++ identifier) + 1 = 1
    · have hE := hIE h1
      have hth1 : l.violationThreshold ≤ 1 := h1 ▸ hth
      simp [Limiter.checkAndBan, Store.incr, Store.expire, Store.set,
        hI, hE, hth1, hS, hE2, h1]
    · simp [Limiter.checkAndBan, Store.incr, Store.expire, Store.set,
        hI, hth, hS, hE2, h1]
  · intro f l s dimension identifier e hI hIE hth hS hE2 hD
    by_cases h1 : s.counters ("violation:" ++ dimension ++ ":" ++ identifier) + 1 = 1
    · have hE := hIE h1
      have hth1 : l.violationThreshold ≤ 1 := h1 ▸ hth
      simp [Limiter.checkAndBan, Store.incr, Store.expire, Store.set, Store.del,
        hI, hE, hth1, hS, hE2, hD, h1]
    · simp [Limiter.checkAndBan, Store.incr, Store.expire, Store.set, Store.del,
        hI, hth, hS, hE2, hD, h1]
  · intro f l s ip user e hab hip hdim hcb
    simp [Limiter.recordViolation, hab, hip, hdim, hcb]
  · intro f l s s1 ip user e hab hAfter hu hdim hcb
    simp only [Limiter.recordViolation]
    rw [if_neg (show ¬((!l.autoBanEnabled) = true) by simp [hab]), hAfter]
    dsimp only
    rw [if_pos ⟨hu, hdim⟩]
    exact hcb
  · intro f l rule s nowNs path ip user e h
    rcases h with ⟨hA, hE⟩ | ⟨hA, hE⟩ | ⟨hA, hE⟩
    · simp only [Limiter.checkRule]
      rw [if_pos hA, hE]
    · have h1 : ¬(rule.Algorithm = "fixed_window") := by simp [hA]
      simp only [Limiter.checkRule]
      rw [if_neg h1, if_pos hA, hE]
    · have h1 : ¬(rule.Algorithm = "fixed_window") := by simp [hA]
      have h2 : ¬(rule.Algorithm = "sliding_window") := by simp [hA]
      simp only [Limiter.checkRule]
      rw [if_neg h1, if_neg h2, if_pos hA, hE]
  · intro f l nowNs path method ip user rule rest s h
    rcases h with hm | hmm
    · simp only [Limiter.checkRulesLoop]
      rw [if_pos (show (!(l.matchPath rule.Path path)) = true by simp [hm])]
    · by_cases hm2 : (!(l.matchPath rule.Path path)) = true
      · simp only [Limiter.checkRulesLoop]
        rw [if_pos hm2]
      · simp only [Limiter.checkRulesLoop]
        rw [if_neg hm2, if_pos hmm]
  · intro f l nowNs path method ip user e rule rest s hm hmm hcr
    simp only [Limiter.checkRulesLoop]
    rw [if_neg (show ¬((!(l.matchPath rule.Path path)) = true) by simp [hm]),
      if_neg hmm, hcr]
  · intro f l nowNs path method ip user e rule rest s s1 result hm hmm hcr hres hrv
    simp only [Limiter.checkRulesLoop]
    rw [if_neg (show ¬((!(l.matchPath rule.Path path)) = true) by simp [hm]),
      if_neg hmm, hcr]
    dsimp only
    rw [if_neg (show ¬(result.Allowed = true) by simp [hres]), hrv]
  · intro f l nowNs path method ip user rule rest s s1 result hm hmm hcr hres
    simp only [Limiter.checkRulesLoop]
    rw [if_neg (show ¬((!(l.matchPath rule.Path path)) = true) by simp [hm]),
      if_neg hmm, hcr]
    dsimp only
    rw [if_pos hres]
  · intro f l s nowNs path method ip user hg
    simp [Limiter.checkGlobalAndRules, hg]
  · intro f l g s nowNs path method ip user e hg hcr
    simp only [Limiter.checkGlobalAndRules, hg]
    rw [hcr]
  · intro f l g s s1 nowNs path method ip user e result hg hcr hres hrv
    simp only [Limiter.checkGlobalAndRules, hg]
    rw [hcr]
    dsimp only
    rw [if_pos (show (!result.Allowed) = true by simp [hres]), hrv]
  · intro f l g s s1 nowNs path method ip user result hg hcr hres
    simp only [Limiter.checkGlobalAndRules, hg]
    rw [hcr]
    dsimp only
    rw [if_neg (show ¬((!result.Allowed) = true) by simp [hres])]
  · intro f l s nowNs path method ip user hip
    exact checkIPStage_fallThrough f l s nowNs path method ip user hip
  · intro f l s nowNs path method ip user hen hu
    exact check_userFallThrough f l s nowNs path method ip user hen hu

/-- C9 witness: a backend that fails on the dynamic user-blacklist lookup
makes `Check` surface the wrapped error. -/
theorem store_error_propagation_witness :
    Limiter.Check userGetFaults userDimLimiter emptyStore 0 "/x" "GET" "" "bob"
      = .error ("检查用户黑名单失败: " ++ "boom") :=
  store_error_propagation.1 userGetFaults userDimLimiter emptyStore 0 "/x" "GET" "" "bob" "boom"
    rfl (by decide) rfl (by decide) (by decide)

/-- One fault-free token-bucket call on an existing bucket `(t, l)`:
admits iff the refilled amount is ≥ 1 (requested = 1) and persists the
refilled amount minus one token exactly on admission, stamped with `now`. -/
lemma tokenBucket_step_some (s : StoreState) (key : String) (capacity : Int)
    (rate : ℚ) (now : Int) (t : ℚ) (l : Int) (hB : s.buckets key = some (t, l)) :
    ∃ ctx s',
      TokenBucketLimiter.Allow noFaults s key capacity rate now = .ok (ctx, s') ∧
      ctx.Allowed = decide (1 ≤ refillTokens capacity rate t l now) ∧
      s'.buckets key = some
        ((if 1 ≤ refillTokens capacity rate t l now then
            refillTokens capacity rate t l now - 1
          else refillTokens capacity rate t l now), now) := by
  by_cases h1 : (1 : ℚ) ≤ refillTokens capacity rate t l now
  · simp only [refillTokens] at h1
    have h1' := le_min_iff.mp h1
    push_cast at h1'
    simp only [TokenBucketLimiter.Allow, Store.evalTokenBucket, noFaults, hB]
    rw [decide_eq_true h1]
    refine ⟨_, _, rfl, ?_, ?_⟩
    · simp [refillTokens, h1'.1, h1'.2]
    · simp [refillTokens, h1'.1, h1'.2]
  · simp only [refillTokens] at h1
    have h2 := min_lt_iff.mp (not_le.mp h1)
    have h2' : (capacity : ℚ) < 1 ∨ t + max 0 ((now : ℚ) - (l : ℚ)) * rate < 1 := by
      rcases h2 with hlt | hlt
      · exact Or.inl hlt
      · push_cast at hlt
        exact Or.inr hlt
    have hcond : ¬(1 ≤ (capacity : ℚ) ∧ 1 ≤ t + max 0 ((now : ℚ) - (l : ℚ)) * rate) := by
      rcases h2' with hlt | hlt
      · intro hc
        linarith [hc.1]
      · intro hc
        linarith [hc.2]
    simp only [TokenBucketLimiter.Allow, Store.evalTokenBucket, noFaults, hB]
    rw [decide_eq_false h1]
    refine ⟨_, _, rfl, ?_, ?_⟩
    · simp only [refillTokens]
      push_cast
      simp [hcond]
    · simp only [refillTokens]
      push_cast
      simp [hcond]

/-- One fault-free token-bucket call on a missing bucket: tokens default
to `capacity` and `last` to `now`, so the refill is `capacity` itself. -/
lemma tokenBucket_step_none (s : StoreState) (key : String) (capacity : Int)
    (rate : ℚ) (now : Int) (hB : s.buckets key = none) :
    ∃ ctx s',
      TokenBucketLimiter.Allow noFaults s key capacity rate now = .ok (ctx, s') ∧
      s'.buckets key = some
        ((if (1 : ℚ) ≤ (capacity : ℚ) then (capacity : ℚ) - 1 else (capacity : ℚ)), now) := by
  by_cases h1 : (1 : ℚ) ≤ (capacity : ℚ)
  · have h1' : (1 : ℚ) ≤ min (capacity : ℚ) ((capacity : ℚ) + ((max 0 (now - now) : Int) : ℚ) * rate) := by
      simp [h1]
    simp only [TokenBucketLimiter.Allow, Store.evalTokenBucket, noFaults, hB]
    rw [decide_eq_true h1']
    refine ⟨_, _, rfl, ?_⟩
    simp [h1]
  · have h1' : ¬((1 : ℚ) ≤ min (capacity : ℚ) ((capacity : ℚ) + ((max 0 (now - now) : Int) : ℚ) * rate)) := by
      simp [h1]
    simp only [TokenBucketLimiter.Allow, Store.evalTokenBucket, noFaults, hB]
    rw [decide_eq_false h1']
    refine ⟨_, _, rfl, ?_⟩
    simp [h1]

/-- The refill amount is within `[0, capacity]` whenever the stored token
count is. -/
lemma refillTokens_range (capacity : Int) (rate : ℚ) (t : ℚ) (l now : Int)
    (hcap : 0 < capacity) (hrate : 0 ≤ rate) (ht : 0 ≤ t) :
    0 ≤ refillTokens capacity rate t l now ∧ refillTokens capacity rate t l now ≤ (capacity : ℚ) := by
  unfold refillTokens
  constructor
  · apply le_min
    · exact_mod_cast le_of_lt hcap
    · have hd : (0 : ℚ) ≤ ((max 0 (now - l) : Int) : ℚ) := by
        exact_mod_cast le_max_left 0 (now - l)
      have := mul_nonneg hd hrate
      linarith
  · exact min_le_left _ _

/-- Any sequence of fault-free token-bucket calls keeps the stored token
count in `[0, capacity]`. -/
lemma tokenBucketRun_inv (key : String) (capacity : Int) (rate : ℚ)
    (hcap : 0 < capacity) (hrate : 0 ≤ rate) :
    ∀ (nows : List Int) (s : StoreState), bucketInRange s key capacity →
      bucketInRange (tokenBucketRun key capacity rate nows s) key capacity := by
  intro nows
  induction nows with
  | nil => intro s h; simpa [tokenBucketRun] using h
  | cons now rest ih =>
    intro s h
    have hcapq : (1 : ℚ) ≤ (capacity : ℚ) := by exact_mod_cast hcap
    rcases hB : s.buckets key with _ | ⟨t, l⟩
    · obtain ⟨ctx, s', heq, hb⟩ := tokenBucket_step_none s key capacity rate now hB
      simp only [tokenBucketRun, heq]
      apply ih
      unfold bucketInRange
      rw [hb, if_pos hcapq]
      dsimp only
      constructor <;> linarith
    · have ht : 0 ≤ t ∧ t ≤ (capacity : ℚ) := by
        unfold bucketInRange at h
        rw [hB] at h
        exact h
      obtain ⟨ctx, s', heq, hA, hb⟩ :=
        tokenBucket_step_some s key capacity rate now t l hB
      obtain ⟨h0, h2⟩ := refillTokens_range capacity rate t l now hcap hrate ht.1
      simp only [tokenBucketRun, heq]
      apply ih
      unfold bucketInRange
      rw [hb]
      by_cases h1 : (1 : ℚ) ≤ refillTokens capacity rate t l now
      · rw [if_pos h1]
        dsimp only
        constructor <;> linarith
      · rw [if_neg h1]
        dsimp only
        exact ⟨h0, h2⟩

/-- C3 (confirmed).  Token-bucket refill invariant: with positive
capacity and rate, across every sequence of fault-free `Allow` calls the
stored token count stays in `[0, capacity]`; each call on stored state
`(t, l)` refills to `min(capacity, t + max(0, now − last)·rate)`, admits
iff that amount is ≥ 1 (the implicit requested = 1), and consumes exactly
one token only on admission. -/
theorem tokenBucket_refill_invariant (key : String) (capacity : Int) (rate : ℚ)
    (hcap : 0 < capacity) (hrate : 0 < rate) :
    (∀ (nows : List Int) (s : StoreState), bucketInRange s key capacity →
        bucketInRange (tokenBucketRun key capacity rate nows s) key capacity)
    ∧ (∀ (s : StoreState) (t : ℚ) (l now : Int), s.buckets key = some (t, l) →
        ∃ ctx s',
          TokenBucketLimiter.Allow noFaults s key capacity rate now = .ok (ctx, s') ∧
          ctx.Allowed = decide (1 ≤ refillTokens capacity rate t l now) ∧
          s'.buckets key = some
            ((if 1 ≤ refillTokens capacity rate t l now then
                refillTokens capacity rate t l now - 1
              else refillTokens capacity rate t l now), now)) :=
  ⟨tokenBucketRun_inv key capacity rate hcap (le_of_lt hrate),
   fun s t l now hB => tokenBucket_step_some s key capacity rate now t l hB⟩

/-- C3 witness: two calls on a fresh bucket of capacity 5 at rate 1 leave
the stored token count inside `[0, 5]`. -/
theorem tokenBucket_refill_invariant_witness :
    bucketInRange (tokenBucketRun "b" 5 1 [7, 7] emptyStore) "b" 5 :=
  (tokenBucket_refill_invariant "b" 5 1 (by norm_num) (by norm_num)).1 [7, 7]
    emptyStore trivial

/-- C8 counterexample: a drained bucket (0 tokens) with capacity 5 and
rate 0.4 denies and the code returns retry_after = trunc(1/0.4) = 2,
while the claim's formula max(1, ceil((requested − tokens'')/rate)) gives
ceil(2.5) = 3. -/
theorem tokenBucket_retry_after_counterexample :
    (ctxOf (TokenBucketLimiter.Allow noFaults drainedBucketStore "k" 5 (2/5) 10)).map
        (fun c => (c.Allowed, c.RetryAfter)) = some (false, 2)
    ∧ max 1 ⌈((1 : ℚ) - 0) / (2/5)⌉ = 3
    ∧ (2 : Int) ≠ 3 := by
  refine ⟨?_, ?_, by decide⟩
  · have hfloor : (⌊(5 : ℚ)/2⌋ : Int) = 2 := by norm_num
    simp [TokenBucketLimiter.Allow, Store.evalTokenBucket, noFaults,
      drainedBucketStore, emptyStore, ctxOf, ratTrunc, min_def, hfloor]
    norm_num
  · have h1 : ((1 : ℚ) - 0) / (2/5) = 5/2 := by norm_num
    rw [h1]
    have h2 : ⌈(5/2 : ℚ)⌉ = 3 := by
      rw [Int.ceil_eq_iff]
      norm_num
    rw [h2]
    decide

/-- C8 (corrected).  On a fault-free deny with a bucket satisfying the
range invariant, retry_after equals max(1, trunc((requested − trunc(tokens''))/rate))
which, because a deny leaves 0 ≤ tokens'' < 1 and so trunc(tokens'') = 0,
is max(1, trunc(1/rate)) — truncation, not the ceiling the claim states. -/
theorem tokenBucket_retry_after_on_deny (f : Faults) (s : StoreState)
    (key : String) (capacity : Int) (rate : ℚ) (now : Int) (ctx : Context)
    (s' : StoreState) (hcap : 0 < capacity) (hrate : 0 < rate)
    (hinv : bucketInRange s key capacity)
    (h : TokenBucketLimiter.Allow f s key capacity rate now = .ok (ctx, s'))
    (hA : ctx.Allowed = false) :
    ctx.RetryAfter = max 1 (ratTrunc (1 / rate)) := by
  have hcapq : (1 : ℚ) ≤ (capacity : ℚ) := by exact_mod_cast hcap
  rcases hBk : s.buckets key with _ | ⟨t, l⟩
  · simp only [TokenBucketLimiter.Allow, Store.evalTokenBucket, hBk] at h
    split at h
    · exact Except.noConfusion h
    · cases h
      rename_i heq
      split at heq
      · exact Except.noConfusion heq
      · cases heq
        simp [hcapq] at hA
  · have ht : 0 ≤ t ∧ t ≤ (capacity : ℚ) := by
      unfold bucketInRange at hinv
      rw [hBk] at hinv
      exact hinv
    have h0 := refillTokens_range capacity rate t l now hcap (le_of_lt hrate) ht.1
    simp only [refillTokens] at h0
    simp only [TokenBucketLimiter.Allow, Store.evalTokenBucket, hBk] at h
    split at h
    · exact Except.noConfusion h
    · cases h
      rename_i heq
      split at heq
      · exact Except.noConfusion heq
      · cases heq
        by_cases hnt : (1 : ℚ) ≤ min (capacity : ℚ) (t + ((max 0 (now - l) : Int) : ℚ) * rate)
        · rw [le_min_iff] at hnt
          push_cast at hnt
          simp at hA
          linarith [hA hnt.1, hnt.2]
        · have hrem : ratTrunc (min (capacity : ℚ) (t + ((max 0 (now - l) : Int) : ℚ) * rate)) = 0 := by
            unfold ratTrunc
            rw [if_pos h0.1]
            exact Int.floor_eq_zero_iff.mpr (Set.mem_Ico.mpr ⟨h0.1, not_le.mp hnt⟩)
          have hrem' := hrem
          push_cast at hrem'
          dsimp only
          rw [decide_eq_false hnt]
          simp [hrem, hrem']
          rcases le_or_lt 1 (ratTrunc rate⁻¹) with hra | hra
          · rw [if_neg (not_lt.mpr hra), max_eq_right hra]
          · rw [if_pos hra, max_eq_left (le_of_lt hra)]

/-- C8 witness: a drained bucket with capacity 5 and rate 2 denies with
retry_after = max(1, trunc(1/2)) = 1. -/
theorem tokenBucket_retry_after_on_deny_witness :
    ∃ ctx s',
      TokenBucketLimiter.Allow noFaults drainedBucketStore "k" 5 2 10 = .ok (ctx, s')
      ∧ ctx.Allowed = false
      ∧ ctx.RetryAfter = max 1 (ratTrunc (1 / 2)) := by
  obtain ⟨ctx, s', heq, hA, -⟩ :=
    tokenBucket_step_some drainedBucketStore "k" 5 2 10 0 10 (by simp [drainedBucketStore])
  have hA0 : ctx.Allowed = false := by
    rw [hA]
    norm_num [refillTokens, min_def]
  exact ⟨ctx, s', heq, hA0,
    tokenBucket_retry_after_on_deny noFaults drainedBucketStore "k" 5 2 10 ctx s'
      (by norm_num) (by norm_num) (by norm_num [bucketInRange, drainedBucketStore]) heq hA0⟩

/-- C6 (code bug, evaluated at the failing input).  With auto-ban enabled
on the `ip` dimension and a single rule whose `RecordViolation` is false,
two requests from the same IP yield verdicts [allow, deny] and the second
(denied) request increments `violation:ip:9.9.9.9` to 1: the engine never
consults the rule's `RecordViolation` flag before recording. -/
theorem violation_recorded_despite_flag :
    (checkRun limiterNoRecord 0 "/a" "GET" "9.9.9.9" "" 2 emptyStore).1.map Result.Allowed
      = [true, false]
    ∧ (checkRun limiterNoRecord 0 "/a" "GET" "9.9.9.9" "" 2 emptyStore).2.counters
        "violation:ip:9.9.9.9" = 1
    ∧ ruleNoRecord.RecordViolation = false :=
  ⟨by decide, by decide, by decide⟩

/-- C7 (code bug, evaluated at the failing input).  With violation
threshold 3 and a rule of violation weight 2, the engine increments the
violation counter by 1 per recorded deny (not by the weight): after the
2nd recorded deny the counter is 2 (not 4) and no ban exists — although
⌈3/2⌉ = 2 denies should already ban per the weighted-increment claim —
and the ban (flag 1, TTL = ban_duration, counter deleted) appears only
after the 3rd deny. -/
theorem weighted_autoban_promotion :
    (checkRun limiterWeighted 0 "/a" "GET" "9.9.9.9" "" 3 emptyStore).1.map Result.Allowed
      = [true, false, false]
    ∧ (checkRun limiterWeighted 0 "/a" "GET" "9.9.9.9" "" 3 emptyStore).2.counters
        "violation:ip:9.9.9.9" = 2
    ∧ (checkRun limiterWeighted 0 "/a" "GET" "9.9.9.9" "" 3 emptyStore).2.counters
        "blacklist:ip:9.9.9.9" = 0
    ∧ (checkRun limiterWeighted 0 "/a" "GET" "9.9.9.9" "" 4 emptyStore).2.counters
        "violation:ip:9.9.9.9" = 0
    ∧ (checkRun limiterWeighted 0 "/a" "GET" "9.9.9.9" "" 4 emptyStore).2.counters
        "blacklist:ip:9.9.9.9" = 1
    ∧ (checkRun limiterWeighted 0 "/a" "GET" "9.9.9.9" "" 4 emptyStore).2.ttls
        "blacklist:ip:9.9.9.9" = some (3600 * nsPerSec)
    ∧ ruleWeighted.ViolationWeight = 2
    ∧ limiterWeighted.violationThreshold = 3 :=
  ⟨by decide, by decide, by decide, by decide, by decide, by decide, by decide, by decide⟩

end GoRatelimiter
